import Mathlib

/-!
Verification of the peer-manager core of libtransmission
(src/libtransmission/peer-mgr.cc) against its natural-language
specification.

The development is a shallow embedding: the C++ functions that the claims
are about are transcribed into executable Lean definitions (pools become
functions from socket addresses to optional peer-info records; vectors
become lists; machine integers become Nat), and the claims are settled by
theorems about those definitions.  A few collaborator types whose code is
not part of the repository snapshot (`tr_peer_info` accessors,
`ActiveRequests`, the compact-address readers) are modelled from the
specification text; each such definition is marked `Modelled from the
spec:` in its doc comment.
-/

-- ===========================================================================
-- C2: tr_peerMgrGetPeers / is_peer_interesting (peer-mgr.cc:1276-1365)
-- ===========================================================================

/-- The fields of a `tr_peer_info` entry of `connectable_pool` that the
`TR_PEERS_INTERESTING` filter of `tr_peerMgrGetPeers` reads.  `in_use` is
`tr_swarm::peer_is_in_use` (connected, or an outgoing handshake is
pending); `blocklisted` is the memoized `is_blocklisted(session)` answer;
`addr_type` is the address family tag of `listen_socket_address`. -/
structure GetPeersPeerInfo where
  addr_type : Nat
  is_seed : Bool
  in_use : Bool
  blocklisted : Bool
  is_banned : Bool
  deriving DecidableEq

/-- Transcription of `is_peer_interesting` (peer-mgr.cc:1276-1299): the
checks run in source order — done-and-seed first, then the in-use
short-circuit, then blocklist, then ban. -/
def is_peer_interesting (tor_is_done : Bool) (info : GetPeersPeerInfo) : Bool :=
  if tor_is_done && info.is_seed then false
  else if info.in_use then true
  else if info.blocklisted then false
  else if info.is_banned then false
  else true

/-- The filter predicate exactly as claim C2 (and §6 of the spec) words it:
a peer is filtered out iff it is a seed while we are done, blocklisted, or
banned, EXCEPT that a peer currently in use always passes.  Written to be
compared against `is_peer_interesting`, the definition from the source. -/
def is_peer_interesting_claim (tor_is_done : Bool) (info : GetPeersPeerInfo) : Bool :=
  if info.in_use then true
  else !(tor_is_done && info.is_seed || info.blocklisted || info.is_banned)

/-- The `TR_PEERS_INTERESTING` collection step of `tr_peerMgrGetPeers`
(peer-mgr.cc:1331-1343): walk `connectable_pool` and keep the entries of
the requested address family that pass `is_peer_interesting`. -/
def getPeersInterestingInfos (tor_is_done : Bool) (address_type : Nat)
    (pool : List GetPeersPeerInfo) : List GetPeersPeerInfo :=
  pool.filter fun info => address_type == info.addr_type && is_peer_interesting tor_is_done info

-- ===========================================================================
-- C8: tr_pex::from_compact_ipv4 / from_compact_ipv6 (peer-mgr.cc:1221-1267)
-- ===========================================================================

/-- Modelled from the spec: compact peer entries are big-endian byte
strings ("IPv4 entries are `4 + 2` bytes big-endian, IPv6 are `16 + 2`");
this folds a byte list into its big-endian value, as
`tr_address::from_compact_*` and `tr_port::fromCompact` (not part of this
snapshot) do. -/
def bytesBE (bs : List Nat) : Nat :=
  bs.foldl (fun acc b => acc * 256 + b % 256) 0

/-- A decoded PEX entry.  `flags` is `none` when the `added_f` byte for the
entry was not applied (the C++ default-constructed flag byte). -/
structure tr_pex where
  addr : Nat
  addr_type : Nat
  port : Nat
  flags : Option Nat
  deriving DecidableEq

/-- The decode loop of `tr_pex::from_compact_ipv4/ipv6`: `walk` is the
input pointer; every iteration reads `addr_bytes` address bytes and then 2
port bytes, advancing `walk` past them.  Returns the decoded
(address, port) pairs and the final position of `walk`. -/
def from_compact_go (addr_bytes : Nat) (walk : List Nat) : Nat → List (Nat × Nat) × List Nat
  | 0 => ([], walk)
  | n + 1 =>
    let addr := bytesBE (walk.take addr_bytes)
    let walk1 := walk.drop addr_bytes
    let port := bytesBE (walk1.take 2)
    let walk2 := walk1.drop 2
    let rest := from_compact_go addr_bytes walk2 n
    ((addr, port) :: rest.1, rest.2)

/-- Compact stride per address family, `tr_socket_address::CompactSockAddrBytes`:
4 + 2 for IPv4. -/
def CompactSockAddrBytes4 : Nat := 6

/-- 16 + 2 for IPv6. -/
def CompactSockAddrBytes6 : Nat := 18

/-- Shared body of the two decoders (they differ only in the stride and
the address-family tag): `n = compact_len / stride` entries are decoded,
and `added_f[i]` is assigned to entry `i` only when
`added_f != nullptr && n == added_f_len` (peer-mgr.cc:1236-1239). -/
def from_compact (addr_bytes af_tag : Nat) (compact : List Nat)
    (added_f : Option (List Nat)) : List tr_pex :=
  let n := compact.length / (addr_bytes + 2)
  let pairs := (from_compact_go addr_bytes compact n).1
  ((List.range n).zip pairs).map fun ip =>
    { addr := ip.2.1
      addr_type := af_tag
      port := ip.2.2
      flags := match added_f with
        | some fs => if n = fs.length then some (fs.getD ip.1 0) else none
        | none => none }

/-- Transcription of `tr_pex::from_compact_ipv4` (peer-mgr.cc:1221-1243). -/
def tr_pex.from_compact_ipv4 (compact : List Nat) (added_f : Option (List Nat)) : List tr_pex :=
  from_compact 4 0 compact added_f

/-- Transcription of `tr_pex::from_compact_ipv6` (peer-mgr.cc:1245-1267). -/
def tr_pex.from_compact_ipv6 (compact : List Nat) (added_f : Option (List Nat)) : List tr_pex :=
  from_compact 16 1 compact added_f

/-- Bytes consumed by the ipv4 decode loop: the distance its `walk`
pointer travelled from the start of `compact`. -/
def from_compact_ipv4_consumed (compact : List Nat) : Nat :=
  compact.length - (from_compact_go 4 compact (compact.length / CompactSockAddrBytes4)).2.length

/-- Bytes consumed by the ipv6 decode loop. -/
def from_compact_ipv6_consumed (compact : List Nat) : Nat :=
  compact.length - (from_compact_go 16 compact (compact.length / CompactSockAddrBytes6)).2.length

-- ===========================================================================
-- C4 / C5: ActiveRequests, updateEndgame, and the peer-event request edits
-- (peer-mgr.cc:223-233, 314-324, 464-466, 638-651, 945-953)
-- ===========================================================================

/-- Modelled from the spec: `ActiveRequests` (its class lives in
peer-mgr-active-requests.{h,cc}, outside this snapshot) is the relation
`{block → {peer → sent_time}}` with at most one outstanding request per
`(block, peer)`; `add` is idempotent w.r.t. already-present pairs,
`remove` erases by block, by (block, peer), or by peer, and
`sent_before(cutoff)` lists pairs with `sent_time < cutoff`.  Embedded as
the list of its `(block, peer, sent_time)` triples. -/
structure ActiveRequests where
  reqs : List (Nat × Nat × Nat)
  deriving DecidableEq

/-- `ActiveRequests::has(block, peer)`. -/
def ActiveRequests.has (a : ActiveRequests) (block peer : Nat) : Bool :=
  a.reqs.any fun r => r.1 == block && r.2.1 == peer

/-- `ActiveRequests::add(block, peer, now)` — no-op when the pair is
already outstanding. -/
def ActiveRequests.add (a : ActiveRequests) (block peer now : Nat) : ActiveRequests :=
  if a.has block peer then a else ⟨(block, peer, now) :: a.reqs⟩

/-- `ActiveRequests::remove(block, peer)`. -/
def ActiveRequests.removeBlockPeer (a : ActiveRequests) (block peer : Nat) : ActiveRequests :=
  ⟨a.reqs.filter fun r => !(r.1 == block && r.2.1 == peer)⟩

/-- `ActiveRequests::remove(peer)` — used by the `ClientGotChoke` handler
(peer-mgr.cc:464-466) and the peer destructor. -/
def ActiveRequests.removePeer (a : ActiveRequests) (peer : Nat) : ActiveRequests :=
  ⟨a.reqs.filter fun r => !(r.2.1 == peer)⟩

/-- `ActiveRequests::remove(block)` — used by `cancelAllRequestsForBlock`. -/
def ActiveRequests.removeBlock (a : ActiveRequests) (block : Nat) : ActiveRequests :=
  ⟨a.reqs.filter fun r => !(r.1 == block)⟩

/-- Drop the pairs with `sent_time < cutoff`: the removal half of
`tr_swarm::cancelOldRequests` (peer-mgr.cc:223-233), which removes every
pair returned by `sentBefore(now - RequestTtlSecs)`. -/
def ActiveRequests.removeSentBefore (a : ActiveRequests) (cutoff : Nat) : ActiveRequests :=
  ⟨a.reqs.filter fun r => !(r.2.2 < cutoff : Bool)⟩

/-- `std::size(active_requests)`: the number of outstanding
`(block, peer)` pairs. -/
def ActiveRequests.size (a : ActiveRequests) : Nat :=
  a.reqs.length

/-- Modelled from the spec: `tr_block_info::BlockSize` (block-info.h,
outside this snapshot), the fixed 16 KiB BitTorrent transfer-block size. -/
def BlockSize : Nat := 16384

/-- `tr_swarm::RequestTtlSecs` (peer-mgr.cc:776): how long a request may
linger before `cancelOldRequests` drops it. -/
def RequestTtlSecs : Nat := 90

/-- The slice of `tr_swarm` state that the request-bookkeeping and endgame
claims read: the outstanding requests, the torrent's
`left_until_done()` byte count, and the `is_endgame_` flag. -/
structure EndgameSwarm where
  active_requests : ActiveRequests
  left_until_done : Nat
  is_endgame : Bool
  deriving DecidableEq

/-- Transcription of `tr_swarm::updateEndgame` (peer-mgr.cc:314-319):
`is_endgame_ = size(active_requests) * BlockSize >= left_until_done`. -/
def updateEndgame (s : EndgameSwarm) : EndgameSwarm :=
  { s with is_endgame := decide (s.active_requests.size * BlockSize ≥ s.left_until_done) }

/-- The swarm operations that edit request state between `updateEndgame`
calls, as claim C4 ranges over them.  `gotBlock` is the only operation
that completes a block. -/
inductive SwarmOp where
  | clientSentRequest (block peer now : Nat)
  | clientGotChoke (peer : Nat)
  | clientGotRej (block peer : Nat)
  | clientGotBlock (block peer : Nat)
  | cancelOldRequests (now : Nat)
  | updateEndgameOp
  deriving DecidableEq

/-- One step of the swarm request-state machine, each arm transcribed from
the peer-mgr.cc site named in its comment.  `clientGotBlock` also lets the
torrent account the completed block, shrinking `left_until_done`. -/
def swarmStep (s : EndgameSwarm) : SwarmOp → EndgameSwarm
  | .clientSentRequest block peer now =>
    -- tr_peerMgrClientSentRequests (peer-mgr.cc:945-953)
    { s with active_requests := s.active_requests.add block peer now }
  | .clientGotChoke peer =>
    -- peer_callback_bt, ClientGotChoke (peer-mgr.cc:464-466)
    { s with active_requests := s.active_requests.removePeer peer }
  | .clientGotRej block peer =>
    -- peer_callback_common, ClientGotRej (peer-mgr.cc:638-640)
    { s with active_requests := s.active_requests.removeBlockPeer block peer }
  | .clientGotBlock block _peer =>
    -- peer_callback_common, ClientGotBlock (peer-mgr.cc:642-651):
    -- cancelAllRequestsForBlock, then tr_torrentGotBlock
    { s with
      active_requests := s.active_requests.removeBlock block
      left_until_done := s.left_until_done - BlockSize }
  | .cancelOldRequests now =>
    -- tr_swarm::cancelOldRequests (peer-mgr.cc:223-233)
    { s with active_requests := s.active_requests.removeSentBefore (now - RequestTtlSecs) }
  | .updateEndgameOp =>
    -- tr_swarm::updateEndgame (peer-mgr.cc:314-319)
    updateEndgame s

/-- Run a sequence of swarm operations. -/
def swarmRun (s : EndgameSwarm) (ops : List SwarmOp) : EndgameSwarm :=
  ops.foldl swarmStep s

/-- Does an operation complete a block? -/
def SwarmOp.completesBlock : SwarmOp → Bool
  | .clientGotBlock _ _ => true
  | _ => false

-- ===========================================================================
-- C6: on_handshake_done, success path (peer-mgr.cc:1076-1165)
-- ===========================================================================

/-- The `tr_peer_info` fields that `on_handshake_done` reads or writes.
The tri-states `is_connectable` and `supports_utp` are `Option Bool`
(`none` = unknown). -/
structure HsPeerInfo where
  is_banned : Bool
  is_connected : Bool
  connection_failure_count : Nat
  is_connectable : Option Bool
  supports_utp : Option Bool
  deriving DecidableEq

/-- The slice of swarm state `on_handshake_done` touches: the connected
`peers` count (`peerCount()`, kept equal to `stats.peer_count`), the
per-source stat bumped by `create_bit_torrent_peer`, the torrent's
`peer_limit()`, `is_running`, and the `tr_peer_info` (if any) at the
handshake's socket address. -/
structure HsSwarm where
  peers_count : Nat
  stats_peer_count : Nat
  stats_from_count : Nat
  peer_limit : Nat
  is_running : Bool
  info : Option HsPeerInfo
  deriving DecidableEq

/-- The `tr_handshake::Result` fields read by `on_handshake_done`. -/
structure HandshakeResult where
  is_connected : Bool
  is_incoming : Bool
  is_utp : Bool
  read_anything_from_peer : Bool
  deriving DecidableEq

/-- `ensure_info_exists(socket_address, 0, TR_PEER_FROM_INCOMING, false)`
as called on the success path for an incoming handshake with no existing
info (peer-mgr.cc:1121): a fresh, unbanned, unconnected record. -/
def hs_fresh_incoming_info : HsPeerInfo :=
  { is_banned := false
    is_connected := false
    connection_failure_count := 0
    is_connectable := none
    supports_utp := none }

/-- The info object the success path of `on_handshake_done` works with,
after `ensure_info_exists` and the `set_connectable()` /
`set_utp_supported()` updates (peer-mgr.cc:1120-1133). -/
def hs_ensured_info (s : HsSwarm) (r : HandshakeResult) : HsPeerInfo :=
  let info := match s.info with
    | some i => i
    | none => hs_fresh_incoming_info
  let info := if !r.is_incoming then { info with is_connectable := some true } else info
  if r.is_utp then { info with supports_utp := some true } else info

/-- Transcription of `on_handshake_done` (peer-mgr.cc:1076-1165) for a
handshake whose swarm exists, without the handshake-table erasure (the
table is not part of this state slice).  Returns the new state and the
value the callback returns — `true` iff a peer was installed.  On the
failure path (`!ok || !is_running`) a not-connected info gets
`on_connection_failed()`, plus `set_connectable(false)` when nothing was
ever read.  On the success path the connection is dropped when the info
is banned, the swarm is full, or the info is already connected; otherwise
`create_bit_torrent_peer` installs the peer and bumps the stats. -/
def on_handshake_done (s : HsSwarm) (r : HandshakeResult) : HsSwarm × Bool :=
  if !(r.is_connected && s.is_running) then
    match s.info with
    | some info =>
      if !info.is_connected then
        let info := { info with connection_failure_count := info.connection_failure_count + 1 }
        let info := if !r.read_anything_from_peer then { info with is_connectable := some false }
                    else info
        ({ s with info := some info }, false)
      else (s, false)
    | none => (s, false)
  else
    let info := hs_ensured_info s r
    if info.is_banned then
      ({ s with info := some info }, false)
    else if s.peer_limit ≤ s.peers_count then
      ({ s with info := some info }, false)
    else if info.is_connected then
      ({ s with info := some info }, false)
    else
      ({ s with
          info := some { info with is_connected := true }
          peers_count := s.peers_count + 1
          stats_peer_count := s.stats_peer_count + 1
          stats_from_count := s.stats_from_count + 1 }, true)

-- ===========================================================================
-- C7: tr_peerMgr::make_new_peer_connections (peer-mgr.cc:788-804, 2300-2451)
-- ===========================================================================

/-- `tr_peerMgr::BandwidthTimerPeriod` in milliseconds (peer-mgr.cc:788). -/
def BandwidthTimerPeriodMs : Nat := 500

/-- `tr_peerMgr::MaxConnectionsPerSecond` (peer-mgr.cc:794). -/
def MaxConnectionsPerSecond : Nat := 18

/-- `tr_peerMgr::MaxConnectionsPerPulse = MaxConnectionsPerSecond *
BandwidthTimerPeriod / 1s` (peer-mgr.cc:795). -/
def MaxConnectionsPerPulse : Nat := MaxConnectionsPerSecond * BandwidthTimerPeriodMs / 1000

/-- `tr_peerMgr::OutboundCandidatesListTtl = BandwidthTimerPeriod * 4`,
in milliseconds (peer-mgr.cc:800). -/
def OutboundCandidatesListTtlMs : Nat := BandwidthTimerPeriodMs * 4

/-- `tr_peerMgr::OutboundCandidateListCapacity` (peer-mgr.cc:803-804),
the bound of the `OutboundCandidates` vector. -/
def OutboundCandidateListCapacity : Nat :=
  MaxConnectionsPerPulse * OutboundCandidatesListTtlMs / BandwidthTimerPeriodMs

/-- A scored outbound candidate: a `peer_candidate` (peer-mgr.cc:2214-2228)
reduced to the `(torrent id, socket address)` pair that is cached in
`outbound_candidates_` together with its `getPeerCandidateScore` value. -/
structure Candidate where
  score : Nat
  tor_id : Nat
  addr : Nat
  port : Nat
  deriving DecidableEq

/-- The tail of `get_peer_candidates` (peer-mgr.cc:2354-2372), taking the
populated candidate array in swarm-iteration order: when more than
`OutboundCandidateListCapacity` candidates were generated, partial-sort by
score ascending and keep that many best; then emit them back-to-front so
the best candidate sits at the back of the cached list.  (`mergeSort`
stands in for `std::partial_sort`'s prefix: one of its permitted
outcomes.) -/
def get_peer_candidates (generated : List Candidate) : List Candidate :=
  let kept :=
    if OutboundCandidateListCapacity < generated.length then
      (generated.mergeSort fun a b => decide (a.score ≤ b.score)).take OutboundCandidateListCapacity
    else generated
  kept.reverse

/-- Transcription of `tr_peerMgr::make_new_peer_connections`
(peer-mgr.cc:2420-2451): rebuild the cache from the generated candidates
if it is empty, walk the last `min(size, MaxConnectionsPerPulse)` entries
back-to-front initiating a connection for each whose torrent and
`tr_peer_info` still exist (`alive`), then resize the cache down by that
count.  Returns (attempted candidates in dialing order, remaining cache). -/
def make_new_peer_connections (cached generated : List Candidate)
    (alive : Candidate → Bool) : List Candidate × List Candidate :=
  let candidates := if cached.isEmpty then get_peer_candidates generated else cached
  let n_this_pass := min candidates.length MaxConnectionsPerPulse
  let attempted := (candidates.reverse.take n_this_pass).filter alive
  (attempted, candidates.take (candidates.length - n_this_pass))

-- ===========================================================================
-- C9: tr_peerMgrAddPex / tr_swarm::ensure_info_exists
-- (peer-mgr.cc:374-395, 1199-1219)
-- ===========================================================================

/-- A socket address: (IP, port), the key of the peer pools. -/
def SockAddr : Type := Nat × Nat

instance : DecidableEq SockAddr := instDecidableEqProd

/-- The `tr_peer_info` fields that `tr_peerMgrAddPex` can touch through
`ensure_info_exists`. -/
structure PexPeerInfo where
  from_first : Nat
  from_best : Nat
  pex_flags : Nat
  deriving DecidableEq

/-- Modelled from the spec: the `tr_peer_info(socket_address, flags, from)`
constructor (peer-mgr.h, outside this snapshot) records `from` as both the
first and the best source and stores the PEX flags. -/
def PexPeerInfo.make (flags frm : Nat) : PexPeerInfo :=
  { from_first := frm, from_best := frm, pex_flags := flags }

/-- Modelled from the spec: `tr_peer_info::found_at(from)` "updates
`from_best := min(from_best, from)`" (§4.1). -/
def PexPeerInfo.found_at (i : PexPeerInfo) (frm : Nat) : PexPeerInfo :=
  { i with from_best := min i.from_best frm }

/-- Modelled from the spec: `tr_peer_info::set_pex_flags` "ORs flags"
(§4.1). -/
def PexPeerInfo.set_pex_flags (i : PexPeerInfo) (flags : Nat) : PexPeerInfo :=
  { i with pex_flags := i.pex_flags ||| flags }

/-- `tr_swarm::connectable_pool` as `tr_peerMgrAddPex` sees it: an
`unordered_map` from socket address to `tr_peer_info`, embedded as a
function into `Option`. -/
def PexPool : Type := SockAddr → Option PexPeerInfo

/-- Transcription of `tr_swarm::ensure_info_exists` (peer-mgr.cc:374-395)
restricted to the `is_connectable = true` branch that `tr_peerMgrAddPex`
takes: `try_emplace` into `connectable_pool`, and when the entry already
existed, `found_at(from)` followed by `set_pex_flags(flags)`. -/
def ensure_info_exists (p : PexPool) (k : SockAddr) (flags frm : Nat) : PexPool :=
  fun k2 =>
    if k2 = k then
      match p k with
      | some i => some ((i.found_at frm).set_pex_flags flags)
      | none => some (PexPeerInfo.make flags frm)
    else p k2

/-- `TR_PEER_FROM_INCOMING` and `TR_PEER_FROM_PEX`: two distinct members
of the `tr_peer_from` enum (transmission.h, outside this snapshot; only
their identities matter here). -/
def TR_PEER_FROM_INCOMING : Nat := 6

/-- See `TR_PEER_FROM_INCOMING`. -/
def TR_PEER_FROM_PEX : Nat := 3

/-- `ADDED_F_CONNECTABLE`: bit 0 of a PEX `added.f` flag byte. -/
def ADDED_F_CONNECTABLE : Nat := 1

/-- One `tr_pex` entry as `tr_peerMgrAddPex` inspects it, together with
the per-address answers of the collaborators it consults: `is_pex` is
`tr_isPex(pex)` (the corrupt-data safeguard), `blocked` is
`session->addressIsBlocked(pex->addr)`, and `valid_for_peers` is
`pex->is_valid_for_peers()`. -/
structure PexEntry where
  addr : Nat
  port : Nat
  flags : Nat
  is_pex : Bool
  blocked : Bool
  valid_for_peers : Bool
  deriving DecidableEq

/-- The admission test of the `tr_peerMgrAddPex` loop body
(peer-mgr.cc:1207-1209). -/
def pexAccepted (frm : Nat) (px : PexEntry) : Bool :=
  px.is_pex && !px.blocked && px.valid_for_peers && frm != TR_PEER_FROM_INCOMING &&
    (frm != TR_PEER_FROM_PEX || px.flags &&& ADDED_F_CONNECTABLE != 0)

/-- Transcription of `tr_peerMgrAddPex` (peer-mgr.cc:1199-1219): walk the
pex array, and for each accepted entry `ensure_info_exists` it into the
connectable pool and count it.  Returns the new pool and `n_used`. -/
def tr_peerMgrAddPex (p : PexPool) (frm : Nat) (pexes : List PexEntry) : PexPool × Nat :=
  pexes.foldl
    (fun acc px =>
      if pexAccepted frm px then
        (ensure_info_exists acc.1 (px.addr, px.port) px.flags frm, acc.2 + 1)
      else acc)
    (p, 0)

-- ===========================================================================
-- C3 / C10: ClientGotPort, on_got_port, on_got_port_duplicate_connection
-- (peer-mgr.cc:144-176, 468-484, 685-768)
-- ===========================================================================

/-- `tr_compare_3way`: -1 / 0 / 1 three-way comparison. -/
def tr_compare_3way (a b : Nat) : Int :=
  if a < b then -1 else if b < a then 1 else 0

/-- The `tr_peer_info` fields read or written by the port-learning paths.
`listen_port = 0` stands for an empty `tr_port` (an unknown listening
port); `id` stands for the object's identity (the C++ node address), which
survives pool migrations and is what a connected `tr_peerMsgs` references. -/
structure PortPeerInfo where
  id : Nat
  listen_addr : Nat
  listen_port : Nat
  piece_data_time : Nat
  from_best : Nat
  failure_count : Nat
  is_connected : Bool
  is_connectable : Option Bool
  deriving DecidableEq

/-- Modelled from the spec: `tr_peer_info::compare_by_piece_data_time`
(peer-mgr.h, outside this snapshot) three-way-compares the
`latest_piece_data_time` stamps. -/
def compare_by_piece_data_time (a b : PortPeerInfo) : Int :=
  tr_compare_3way a.piece_data_time b.piece_data_time

/-- Modelled from the spec: `tr_peer_info::compare_by_failure_count`
three-way-compares `connection_failure_count`. -/
def compare_by_failure_count (a b : PortPeerInfo) : Int :=
  tr_compare_3way a.failure_count b.failure_count

/-- Transcription of `CompareAtomsByUsefulness::compare`
(peer-mgr.cc:148-163): more recent piece data first, then the lower
(more trusted) `from_best`, then the lower failure count. -/
def CompareAtomsByUsefulness.compare (a b : PortPeerInfo) : Int :=
  if compare_by_piece_data_time a b ≠ 0 then -(compare_by_piece_data_time a b)
  else if tr_compare_3way a.from_best b.from_best ≠ 0 then tr_compare_3way a.from_best b.from_best
  else compare_by_failure_count a b

/-- `CompareAtomsByUsefulness::operator()` (peer-mgr.cc:165-173):
"better goes first". -/
def CompareAtomsByUsefulness (a b : PortPeerInfo) : Bool :=
  CompareAtomsByUsefulness.compare a b < 0

/-- Modelled from the spec: `tr_peer_info::merge(other)` "folds `other`'s
flags, source, failure counters, and timestamps into self" (§4.1): keep
the most recent piece-data stamp, the most trusted source, and the lower
failure count; identity (and connection state) stay those of `self`. -/
def PortPeerInfo.merge (a b : PortPeerInfo) : PortPeerInfo :=
  { a with
    piece_data_time := max a.piece_data_time b.piece_data_time
    from_best := min a.from_best b.from_best
    failure_count := min a.failure_count b.failure_count }

/-- A peer pool (`tr_swarm::Pool`): an `unordered_map` from socket address
to `tr_peer_info`, embedded as a function into `Option`. -/
def PortPool : Type := SockAddr → Option PortPeerInfo

/-- `unordered_map::erase` / the removal half of `extract`. -/
def poolErase (p : PortPool) (k : SockAddr) : PortPool :=
  fun k2 => if k2 = k then none else p k2

/-- `unordered_map::insert` of a node (the key is known to be absent at
every call site, so overwriting is equivalent). -/
def poolInsert (p : PortPool) (k : SockAddr) (v : PortPeerInfo) : PortPool :=
  fun k2 => if k2 = k then some v else p k2

/-- The `tr_peerMsgs` fields the port paths touch: which `tr_peer_info`
the connected peer references (by identity) and its `do_purge` flag. -/
structure PortPeer where
  info_id : Nat
  do_purge : Bool
  deriving DecidableEq

/-- The slice of `tr_swarm` state the port-learning paths touch. -/
structure PortSwarm where
  connectable_pool : PortPool
  incoming_pool : PortPool
  graveyard_pool : PortPool
  peers : List PortPeer

/-- Set `do_purge` on the connected peer referencing info `pid`
(`std::find_if` + `do_purge = true`; peer-info references are unique
across `peers`, so marking every match is the same operation). -/
def markPurge (peers : List PortPeer) (pid : Nat) : List PortPeer :=
  peers.map fun q => if q.info_id = pid then { q with do_purge := true } else q

/-- Transcription of `tr_swarm::on_got_port_duplicate_connection`
(peer-mgr.cc:733-768).  `k_that` is the key of the colliding
`connectable_pool` entry (`it_that`).  In C++ `info_this` / `info_that`
are references into the pools and `merge` mutates the node in place; the
functional embedding passes their current values and writes the merged
value back at the node's key.  Returns the new state and the C++ return
value (`true` = the caller stops, the existing connection won). -/
def on_got_port_duplicate_connection (s : PortSwarm) (k_that : SockAddr)
    (info_this info_that : PortPeerInfo) (was_connectable : Bool) : PortSwarm × Bool :=
  if CompareAtomsByUsefulness info_this info_that then
    let s1 := { s with peers := markPurge s.peers info_that.id }
    let s2 :=
      if was_connectable then
        { s1 with
          connectable_pool := poolErase s1.connectable_pool k_that
          graveyard_pool := poolInsert s1.graveyard_pool k_that info_that }
      else s1
    (s2, false)
  else
    let s1 :=
      { s with
        connectable_pool := poolInsert s.connectable_pool k_that (info_that.merge info_this)
        peers := markPurge s.peers info_this.id }
    let s2 :=
      if was_connectable then
        let this_key : SockAddr := (info_this.listen_addr, info_this.listen_port)
        { s1 with
          connectable_pool := poolErase s1.connectable_pool this_key
          graveyard_pool := poolInsert s1.graveyard_pool this_key info_this }
      else s1
    (s2, true)

/-- The node-extract / re-key / re-insert tail of `tr_swarm::on_got_port`
(peer-mgr.cc:714-730): pull the announcing peer's entry out of
`connectable_pool` (key = its listen socket address) or `incoming_pool`
(key = the connection's socket address), stamp the announced port into
the key and into `listen_port`, and insert it into `connectable_pool`.
`info` is the node's current mapped value. -/
def on_got_port_rekey (s : PortSwarm) (msgs_sa : SockAddr) (info : PortPeerInfo) (eport : Nat)
    (was_connectable : Bool) : PortSwarm :=
  let src_key : SockAddr := if was_connectable then (info.listen_addr, info.listen_port) else msgs_sa
  let connectable1 := if was_connectable then poolErase s.connectable_pool src_key else s.connectable_pool
  let incoming1 := if was_connectable then s.incoming_pool else poolErase s.incoming_pool src_key
  { s with
    connectable_pool := poolInsert connectable1 (info.listen_addr, eport) { info with listen_port := eport }
    incoming_pool := incoming1 }

/-- Transcription of `tr_swarm::on_got_port` (peer-mgr.cc:685-731):
look for an existing `connectable_pool` entry at
`(info_this.listen_address, event.port)`; on a collision with a connected
entry run `on_got_port_duplicate_connection` and stop if it returns true;
otherwise merge the duplicate into the announcing peer's info and erase
it; a collision-free unknown-port peer becomes connectable; finally
re-key the announcing peer's entry to the announced port. -/
def on_got_port (s : PortSwarm) (msgs_sa : SockAddr) (info_this : PortPeerInfo) (eport : Nat)
    (was_connectable : Bool) : PortSwarm :=
  match s.connectable_pool (info_this.listen_addr, eport) with
  | some info_that =>
    let dup :=
      if info_that.is_connected then
        on_got_port_duplicate_connection s (info_this.listen_addr, eport) info_this info_that
          was_connectable
      else (s, false)
    if dup.2 then dup.1
    else
      let merged := info_this.merge info_that
      let s1 :=
        { dup.1 with
          connectable_pool :=
            poolErase dup.1.connectable_pool (info_that.listen_addr, info_that.listen_port) }
      on_got_port_rekey s1 msgs_sa merged eport was_connectable
  | none =>
    let info1 := if !was_connectable then { info_this with is_connectable := some true } else info_this
    on_got_port_rekey s msgs_sa info1 eport was_connectable

/-- Transcription of the `ClientGotPort` dispatch in
`tr_swarm::peer_callback_bt` (peer-mgr.cc:468-484): an empty announced
port does nothing; an unknown `listen_port` takes the
`was_connectable = false` path; a differing known port takes the
`was_connectable = true` path; a matching known port does nothing. -/
def handleClientGotPort (s : PortSwarm) (msgs_sa : SockAddr) (info_this : PortPeerInfo)
    (eport : Nat) : PortSwarm :=
  if eport = 0 then s
  else if info_this.listen_port = 0 then on_got_port s msgs_sa info_this eport false
  else if info_this.listen_port ≠ eport then on_got_port s msgs_sa info_this eport true
  else s

-- ===========================================================================
-- C1: rechokeUploads (peer-mgr.cc:1685-1862)
-- ===========================================================================

/-- The per-pulse inputs `rechokeUploads` reads from one connected peer:
`isSeed()`, `peer_is_interested()`, the `getRateBps` rate, and the salt
the salt shaker would deal it. -/
structure RechokePeer where
  is_seed : Bool
  is_interested : Bool
  rate : Nat
  salt : Nat
  deriving DecidableEq

/-- `ChokeData` (peer-mgr.cc:1685-1724).  `idx` stands for the `msgs`
pointer: the index of the peer in the swarm's `peers` vector. -/
structure ChokeData where
  idx : Nat
  rate : Nat
  salt : Nat
  is_interested : Bool
  was_choked : Bool
  is_choked : Bool
  deriving DecidableEq

/-- `ChokeData::compare` (peer-mgr.cc:1704-1718): prefer the higher rate,
then previously-unchoked, then the lower salt. -/
def ChokeData.compareCD (a b : ChokeData) : Int :=
  if tr_compare_3way a.rate b.rate ≠ 0 then -(tr_compare_3way a.rate b.rate)
  else if a.was_choked ≠ b.was_choked then (if a.was_choked then 1 else -1)
  else tr_compare_3way a.salt b.salt

/-- The choke state `rechokeUploads` works over: each connected peer's
`peer_is_choked()` flag (indexed like `peers`), plus the swarm's
`optimistic` pointer and `optimistic_unchoke_time_scaler`. -/
structure RechokeState where
  chokes : List Bool
  optimistic : Option Nat
  scaler : Nat
  deriving DecidableEq

/-- The per-pulse environment: the connected peers' inputs,
`!tor->client_can_upload()` (`choke_all`), the upstream
`is_maxed_out` flag, `session->uploadSlotsPerTorrent()`, and the
`tr_rand_int` draw used for the optimistic choice. -/
structure RechokeEnv where
  peers : List RechokePeer
  choke_all : Bool
  is_maxed_out : Bool
  upload_slots : Nat
  pick : Nat
  deriving DecidableEq

/-- `OptimisticUnchokeMultiplier` (peer-mgr.cc:1748). -/
def OptimisticUnchokeMultiplier : Nat := 4

/-- The build loop of `rechokeUploads` (peer-mgr.cc:1773-1797): seeds and
(under `choke_all`) everyone get choked on the spot and stay out of the
`choked` vector; the current optimistic peer is skipped; everyone else is
emplaced with `is_choked = true` and `was_choked = peer_is_choked()`. -/
def rechokeBuild (e : RechokeEnv) (chokes : List Bool) (opt1 : Option Nat) : List ChokeData :=
  (List.range e.peers.length).filterMap fun i =>
    match e.peers[i]? with
    | none => none
    | some p =>
      if p.is_seed then none
      else if e.choke_all then none
      else if opt1 = some i then none
      else some ⟨i, p.rate, p.salt, p.is_interested, chokes.getD i true, true⟩

/-- `std::sort(begin(choked), end(choked))` with `ChokeData::operator<`
(a sort by the matching non-strict order: one of `std::sort`'s permitted
outcomes). -/
def rechokeSort (l : List ChokeData) : List ChokeData :=
  List.insertionSort (fun a b => ChokeData.compareCD a b ≤ 0) l

/-- The slot-capping loop (peer-mgr.cc:1816-1834): walk the sorted vector
until `unchoked_interested` reaches `uploadSlotsPerTorrent`, unchoking
each visited entry (or keeping its previous state when the upstream is
maxed out) and counting the interested ones.  Returns the visited prefix
(with updated `is_choked`) and the untouched suffix;
`checked_choke_count` is the length of the prefix. -/
def capLoop (slots : Nat) (maxed : Bool) : Nat → List ChokeData → List ChokeData × List ChokeData
  | _, [] => ([], [])
  | u, x :: xs =>
    if slots ≤ u then ([], x :: xs)
    else
      let x2 := { x with is_choked := if maxed then x.was_choked else false }
      let u2 := if x.is_interested then u + 1 else u
      let r := capLoop slots maxed u2 xs
      (x2 :: r.1, r.2)

/-- The final `set_choke` sweep.  Seeds and (under `choke_all`) everyone
were already choked in the build loop; the skipped optimistic peer keeps
its previous state; then every `ChokeData` entry applies its
`is_choked` (peer-mgr.cc:1858-1861).  `rechokeBase` is the state after
the build loop's immediate `set_choke(true)` calls. -/
def rechokeBase (e : RechokeEnv) (chokes : List Bool) : List Bool :=
  (List.range e.peers.length).map fun i =>
    match e.peers[i]? with
    | none => true
    | some p =>
      if p.is_seed then true
      else if e.choke_all then true
      else chokes.getD i true

/-- Apply the entries' `is_choked` decisions to the per-peer choke list. -/
def applyChokes (base : List Bool) (l : List ChokeData) : List Bool :=
  l.foldl (fun acc c => acc.set c.idx c.is_choked) base

/-- Transcription of `rechokeUploads` (peer-mgr.cc:1750-1862): age the
optimistic slot, build and sort the `choked` vector, run the capping
loop, optionally pick a fresh optimistic peer uniformly from the
interested entries beyond `checked_choke_count`, and apply the choke
decisions. -/
def rechokeUploads (s : RechokeState) (e : RechokeEnv) : RechokeState :=
  let opt1 := if 0 < s.scaler then s.optimistic else none
  let scaler1 := if 0 < s.scaler then s.scaler - 1 else s.scaler
  let cap := capLoop e.upload_slots e.is_maxed_out 0 (rechokeSort (rechokeBuild e s.chokes opt1))
  let rest := cap.2
  let step :=
    if opt1 = none ∧ e.is_maxed_out = false ∧ rest ≠ [] then
      match rest.filter (·.is_interested) with
      | [] => (rest, opt1, scaler1)
      | c0 :: cs =>
        let c := (c0 :: cs).getD (e.pick % (c0 :: cs).length) c0
        (rest.map fun x => if x.idx = c.idx then { x with is_choked := false } else x,
          some c.idx, OptimisticUnchokeMultiplier)
    else (rest, opt1, scaler1)
  { chokes := applyChokes (rechokeBase e s.chokes) (cap.1 ++ step.1)
    optimistic := step.2.1
    scaler := step.2.2 }

/-- Is peer `i` interested (false for an out-of-range index)? -/
def peerInterested (e : RechokeEnv) (i : Nat) : Bool :=
  ((e.peers[i]?).map (·.is_interested)).getD false

/-- How many peers are simultaneously unchoked and interested. -/
def countUnchokedInterested (e : RechokeEnv) (chokes : List Bool) : Nat :=
  ((Finset.range e.peers.length).filter fun i =>
    chokes.getD i true = false ∧ peerInterested e i = true).card

-- ===========================================================================
-- Auxiliary definitions used by the proofs
-- ===========================================================================

/-- The pool component of `tr_peerMgrAddPex` as a plain fold (the loop
without its `n_used` counter). -/
def addPexPool (p : PexPool) (frm : Nat) (l : List PexEntry) : PexPool :=
  l.foldl
    (fun q px =>
      if pexAccepted frm px then ensure_info_exists q (px.addr, px.port) px.flags frm else q)
    p

/-- The pool already holds, at key `k`, an entry that a further
`ensure_info_exists k flags frm` would leave unchanged. -/
def pexAbsorbed (p : PexPool) (k : SockAddr) (flags frm : Nat) : Prop :=
  ∃ i, p k = some i ∧ (i.found_at frm).set_pex_flags flags = i

/-- How many peers outside the index set `excl` are unchoked and
interested under the choke list `b`. -/
def cntExcl (e : RechokeEnv) (excl : List Nat) (b : List Bool) : Nat :=
  ((Finset.range e.peers.length).filter fun i =>
    i ∉ excl ∧ b.getD i true = false ∧ peerInterested e i = true).card

/-- Concrete endgame state: two outstanding requests and exactly two
blocks' worth of bytes left. -/
def C4exState : EndgameSwarm :=
  { active_requests := ⟨[(0, 0, 5), (1, 0, 5)]⟩
    left_until_done := 32768
    is_endgame := false }

/-- Ten generated outbound candidates in swarm-iteration order, scores
descending 9..0 — few enough that `get_peer_candidates` does not sort. -/
def C7exCands : List Candidate :=
  [⟨9, 0, 0, 1⟩, ⟨8, 0, 1, 1⟩, ⟨7, 0, 2, 1⟩, ⟨6, 0, 3, 1⟩, ⟨5, 0, 4, 1⟩,
   ⟨4, 0, 5, 1⟩, ⟨3, 0, 6, 1⟩, ⟨2, 0, 7, 1⟩, ⟨1, 0, 8, 1⟩, ⟨0, 0, 9, 1⟩]

/-- The announcing peer of the C3 counterexample: connected through an
incoming connection, listening port unknown, a worse (less useful) record
than the existing entry. -/
def C3exThis : PortPeerInfo :=
  { id := 1, listen_addr := 10, listen_port := 0, piece_data_time := 0
    from_best := 5, failure_count := 3, is_connected := true, is_connectable := none }

/-- The existing connected `connectable_pool` entry at the announced
port: more useful (lower `from_best`), so it wins the comparison. -/
def C3exThat : PortPeerInfo :=
  { id := 2, listen_addr := 10, listen_port := 6881, piece_data_time := 0
    from_best := 0, failure_count := 0, is_connected := true, is_connectable := some true }

/-- The C3 counterexample swarm: `C3exThat` connected at (10, 6881) in
`connectable_pool`, `C3exThis` connected at the ephemeral (10, 54321) in
`incoming_pool`, empty graveyard, both peers live. -/
def C3exSwarm : PortSwarm :=
  { connectable_pool := fun k => if k = (10, 6881) then some C3exThat else none
    incoming_pool := fun k => if k = (10, 54321) then some C3exThis else none
    graveyard_pool := fun _ => none
    peers := [⟨1, false⟩, ⟨2, false⟩] }

/-- A one-entry swarm used by the C10 witness. -/
def C10exInfo : PortPeerInfo :=
  { id := 7, listen_addr := 10, listen_port := 5, piece_data_time := 0
    from_best := 0, failure_count := 0, is_connected := true, is_connectable := some true }

/-- See `C10exInfo`. -/
def C10exSwarm : PortSwarm :=
  { connectable_pool := fun k => if k = (10, 5) then some C10exInfo else none
    incoming_pool := fun _ => none
    graveyard_pool := fun _ => none
    peers := [⟨7, false⟩] }

/-- The two-peer rechoke scenario of the C1 counterexample: one upload
slot, both peers interested non-seeds, no optimistic peer yet. -/
def C1exEnv : RechokeEnv :=
  { peers := [⟨false, true, 0, 0⟩, ⟨false, true, 0, 1⟩]
    choke_all := false
    is_maxed_out := false
    upload_slots := 1
    pick := 0 }

/-- Both peers start choked; no optimistic peer, scaler 0. -/
def C1exState : RechokeState :=
  { chokes := [true, true], optimistic := none, scaler := 0 }

/-- A three-peer rechoke scenario for the C1 witness: peer 0 (non-seed,
interested, currently unchoked) is the optimistic peer with two pulses of
scaler left; peer 1 is a seed; peer 2 is another interested non-seed. -/
def C1wEnv : RechokeEnv :=
  { peers := [⟨false, true, 5, 0⟩, ⟨true, true, 3, 1⟩, ⟨false, true, 4, 2⟩]
    choke_all := false
    is_maxed_out := false
    upload_slots := 1
    pick := 0 }

/-- See `C1wEnv`. -/
def C1wState : RechokeState :=
  { chokes := [false, true, true], optimistic := some 0, scaler := 2 }

-- ===========================================================================
-- Theorems
-- ===========================================================================

-- --- C2 -------------------------------------------------------------------

/-- Claim C2 is false on the code: a peer that is currently in use but is
a seed while the torrent is done IS filtered out by `is_peer_interesting`
(the done-and-seed test precedes the in-use short-circuit), while the
claim's filter ("a peer currently in use always passes") admits it. -/
theorem C2_counterexample :
    is_peer_interesting true ⟨0, true, true, false, false⟩ = false ∧
      is_peer_interesting_claim true ⟨0, true, true, false, false⟩ = true := by
  decide

/-- Claim C2 (amended): in INTERESTING mode a connectable-pool peer of the
requested address family is filtered out of the collected list exactly
when it is a seed while the torrent is done, or it is not in use and is
blocklisted or banned — the in-use exception applies only to the
blocklist and ban tests, not to the seed-while-done test. -/
theorem C2_filter_amended (tor_is_done : Bool) (address_type : Nat)
    (pool : List GetPeersPeerInfo) (info : GetPeersPeerInfo)
    (hmem : info ∈ pool) (htype : info.addr_type = address_type) :
    info ∉ getPeersInterestingInfos tor_is_done address_type pool ↔
      (tor_is_done = true ∧ info.is_seed = true) ∨
        (info.in_use = false ∧ (info.blocklisted = true ∨ info.is_banned = true)) := by
  obtain ⟨a, sd, u, bl, bn⟩ := info
  simp only [getPeersInterestingInfos, List.mem_filter, hmem, true_and, List.mem_filter]
  subst htype
  cases tor_is_done <;> cases sd <;> cases u <;> cases bl <;> cases bn <;>
    simp [is_peer_interesting]

/-- Witness for `C2_filter_amended` at a blocklisted, not-in-use peer. -/
theorem C2_filter_amended_witness :
    ((⟨0, false, false, true, false⟩ : GetPeersPeerInfo) ∈
        [(⟨0, false, false, true, false⟩ : GetPeersPeerInfo)] ∧
      (⟨0, false, false, true, false⟩ : GetPeersPeerInfo).addr_type = 0) ∧
      ((⟨0, false, false, true, false⟩ : GetPeersPeerInfo) ∉
          getPeersInterestingInfos false 0 [⟨0, false, false, true, false⟩] ↔
        (false = true ∧ (false : Bool) = true) ∨
          ((false : Bool) = false ∧ ((true : Bool) = true ∨ (false : Bool) = true))) :=
  ⟨⟨by decide, rfl⟩, C2_filter_amended false 0 _ _ (by decide) rfl⟩

-- --- C5 -------------------------------------------------------------------

/-- Claim C5: `updateEndgame` sets the endgame flag exactly when the
number of outstanding requests times the block size reaches the bytes
left until done, and the `updateEndgameOp` swarm step is that update. -/
theorem C5_updateEndgame_formula (s : EndgameSwarm) :
    ((updateEndgame s).is_endgame = true ↔
        s.active_requests.size * BlockSize ≥ s.left_until_done) ∧
      swarmStep s .updateEndgameOp = updateEndgame s := by
  constructor
  · simp [updateEndgame]
  · rfl

-- --- C4 -------------------------------------------------------------------

/-- Claim C4 is false on the code: `updateEndgame` recomputes the flag
from scratch, so a sequence without any completed block — here a
`ClientGotChoke` that removes both outstanding requests — can flip
endgame from true back to false. -/
theorem C4_counterexample :
    (∀ op ∈ [SwarmOp.updateEndgameOp, SwarmOp.clientGotChoke 0, SwarmOp.updateEndgameOp],
        op.completesBlock = false) ∧
      (swarmRun C4exState [.updateEndgameOp]).is_endgame = true ∧
      (swarmRun C4exState [.updateEndgameOp, .clientGotChoke 0, .updateEndgameOp]).is_endgame
        = false := by
  decide

/-- Claim C4 (amended): the endgame flag is not monotone under arbitrary
block-free operation sequences; what holds is that once `updateEndgame`
has set it, any later `updateEndgame` keeps it set as long as
`active_requests` has not shrunk below its size at that point and
`left_until_done` has not grown (and no operation but a completed block
ever shrinks `left_until_done`). -/
theorem C4_endgame_amended (s s2 : EndgameSwarm)
    (h1 : (updateEndgame s).is_endgame = true)
    (hsize : s.active_requests.size ≤ s2.active_requests.size)
    (hleft : s2.left_until_done ≤ s.left_until_done) :
    (updateEndgame s2).is_endgame = true := by
  simp only [updateEndgame, decide_eq_true_eq, ge_iff_le] at h1 ⊢
  calc s2.left_until_done ≤ s.left_until_done := hleft
    _ ≤ s.active_requests.size * BlockSize := h1
    _ ≤ s2.active_requests.size * BlockSize := Nat.mul_le_mul_right _ hsize

/-- Witness for `C4_endgame_amended`: a request added on top of the
endgame state keeps endgame set. -/
theorem C4_endgame_amended_witness :
    (updateEndgame C4exState).is_endgame = true ∧
      C4exState.active_requests.size ≤
        (swarmStep C4exState (.clientSentRequest 2 1 9)).active_requests.size ∧
      (swarmStep C4exState (.clientSentRequest 2 1 9)).left_until_done ≤
        C4exState.left_until_done ∧
      (updateEndgame (swarmStep C4exState (.clientSentRequest 2 1 9))).is_endgame = true :=
  ⟨by decide, by decide, by decide,
    C4_endgame_amended C4exState _ (by decide) (by decide) (by decide)⟩

-- --- C10 ------------------------------------------------------------------

/-- Claim C10: when a connected peer whose `listen_port` is already known
announces that very port, the `ClientGotPort` dispatch falls through all
three guards and the whole swarm state — pools, peer infos, and `do_purge`
flags — is untouched. -/
theorem C10_same_port_noop (s : PortSwarm) (msgs_sa : SockAddr) (info : PortPeerInfo)
    (eport : Nat) (hknown : info.listen_port ≠ 0) (heq : eport = info.listen_port) :
    handleClientGotPort s msgs_sa info eport = s := by
  subst heq
  simp [handleClientGotPort, hknown]

/-- Witness for `C10_same_port_noop` at a one-entry swarm. -/
theorem C10_same_port_noop_witness :
    (C10exInfo.listen_port ≠ 0 ∧ 5 = C10exInfo.listen_port) ∧
      handleClientGotPort C10exSwarm (10, 5) C10exInfo 5 = C10exSwarm :=
  ⟨⟨by decide, rfl⟩, C10_same_port_noop C10exSwarm (10, 5) C10exInfo 5 (by decide) rfl⟩

-- --- C3 -------------------------------------------------------------------

/-- Claim C3 is false on the code: in the concrete collision where the
announcing peer came in over an incoming connection (its port previously
unknown, `was_connectable = false`) and loses the `CompareByUsefulness`
comparison, its `PeerInfo` is NOT moved to `graveyard_pool` — the
graveyard stays empty at every key in play and the losing entry stays in
`incoming_pool` — even though its peer is purged and the winner merges
its history. -/
theorem C3_counterexample :
    (handleClientGotPort C3exSwarm (10, 54321) C3exThis 6881).graveyard_pool (10, 6881) = none ∧
      (handleClientGotPort C3exSwarm (10, 54321) C3exThis 6881).graveyard_pool (10, 54321)
        = none ∧
      (handleClientGotPort C3exSwarm (10, 54321) C3exThis 6881).graveyard_pool (10, 0) = none ∧
      (handleClientGotPort C3exSwarm (10, 54321) C3exThis 6881).incoming_pool (10, 54321)
        = some C3exThis ∧
      (handleClientGotPort C3exSwarm (10, 54321) C3exThis 6881).peers = [⟨1, true⟩, ⟨2, false⟩] ∧
      (handleClientGotPort C3exSwarm (10, 54321) C3exThis 6881).connectable_pool (10, 6881)
        = some (C3exThat.merge C3exThis) := by
  decide

/-- Claim C3 (amended): on a port announcement colliding with a connected
`connectable_pool` entry, the two infos are compared with
`CompareAtomsByUsefulness`; the loser's connected peer is marked
`do_purge` and the winner absorbs (merges) the loser's history, ending up
keyed under the announced port — but the losing `PeerInfo` is moved to
`graveyard_pool` only when the announcing peer's port was already known
(`was_connectable`); when the announcing peer's port was unknown, the
graveyard is untouched: a losing announcing peer simply stays in
`incoming_pool`, and a losing existing entry is erased outright. -/
theorem C3_port_collision_amended (s : PortSwarm) (msgs_sa : SockAddr)
    (info_this info_that : PortPeerInfo) (eport : Nat) (was_connectable : Bool)
    (h1 : s.connectable_pool (info_this.listen_addr, eport) = some info_that)
    (h2 : info_that.is_connected = true)
    (h3 : info_that.listen_addr = info_this.listen_addr)
    (h4 : info_that.listen_port = eport)
    (h5 : was_connectable = true → info_this.listen_port ≠ eport) :
    (CompareAtomsByUsefulness info_this info_that = true →
        (on_got_port s msgs_sa info_this eport was_connectable).peers
            = markPurge s.peers info_that.id ∧
          (on_got_port s msgs_sa info_this eport was_connectable).connectable_pool
              (info_this.listen_addr, eport)
            = some { info_this.merge info_that with listen_port := eport } ∧
          (was_connectable = true →
            (on_got_port s msgs_sa info_this eport was_connectable).graveyard_pool
                (info_this.listen_addr, eport) = some info_that) ∧
          (was_connectable = false →
            (on_got_port s msgs_sa info_this eport was_connectable).graveyard_pool
              = s.graveyard_pool)) ∧
      (CompareAtomsByUsefulness info_this info_that = false →
        (on_got_port s msgs_sa info_this eport was_connectable).peers
            = markPurge s.peers info_this.id ∧
          (on_got_port s msgs_sa info_this eport was_connectable).connectable_pool
              (info_this.listen_addr, eport)
            = some (info_that.merge info_this) ∧
          (was_connectable = true →
            (on_got_port s msgs_sa info_this eport was_connectable).graveyard_pool
                (info_this.listen_addr, info_this.listen_port) = some info_this) ∧
          (was_connectable = false →
            (on_got_port s msgs_sa info_this eport was_connectable).graveyard_pool
                = s.graveyard_pool ∧
              (on_got_port s msgs_sa info_this eport was_connectable).incoming_pool
                = s.incoming_pool)) := by
  cases was_connectable with
  | false =>
    constructor
    · intro hcmp
      refine ⟨?_, ?_, ?_, ?_⟩
      · simp [on_got_port, h1, h2, hcmp, on_got_port_duplicate_connection, on_got_port_rekey]
      · simp [on_got_port, h1, h2, hcmp, on_got_port_duplicate_connection, on_got_port_rekey,
          poolErase, poolInsert, PortPeerInfo.merge]
      · intro h; cases h
      · intro _
        simp [on_got_port, h1, h2, hcmp, on_got_port_duplicate_connection, on_got_port_rekey]
    · intro hcmp
      refine ⟨?_, ?_, ?_, ?_⟩
      · simp [on_got_port, h1, h2, hcmp, on_got_port_duplicate_connection]
      · simp [on_got_port, h1, h2, hcmp, on_got_port_duplicate_connection, poolInsert]
      · intro h; cases h
      · intro _
        constructor <;>
          simp [on_got_port, h1, h2, hcmp, on_got_port_duplicate_connection]
  | true =>
    have h6 : info_this.listen_port ≠ eport := h5 rfl
    constructor
    · intro hcmp
      refine ⟨?_, ?_, ?_, ?_⟩
      · simp [on_got_port, h1, h2, hcmp, on_got_port_duplicate_connection, on_got_port_rekey]
      · simp [on_got_port, h1, h2, hcmp, on_got_port_duplicate_connection, on_got_port_rekey,
          poolErase, poolInsert, PortPeerInfo.merge]
      · intro _
        simp [on_got_port, h1, h2, hcmp, on_got_port_duplicate_connection, on_got_port_rekey,
          poolErase, poolInsert, h3, h4]
      · intro h; cases h
    · intro hcmp
      refine ⟨?_, ?_, ?_, ?_⟩
      · simp [on_got_port, h1, h2, hcmp, on_got_port_duplicate_connection]
      · simp only [on_got_port, h1, h2, hcmp, on_got_port_duplicate_connection, poolErase,
          poolInsert, Bool.false_eq_true, if_false, if_true]
        rw [if_neg (fun heq => Ne.symm h6 (congrArg Prod.snd heq))]
      · intro _
        simp [on_got_port, h1, h2, hcmp, on_got_port_duplicate_connection, poolErase,
          poolInsert]
      · intro h; cases h

/-- Witness for `C3_port_collision_amended` at the concrete collision of
the counterexample swarm. -/
theorem C3_port_collision_amended_witness :
    (C3exSwarm.connectable_pool (C3exThis.listen_addr, 6881) = some C3exThat ∧
        C3exThat.is_connected = true ∧
        C3exThat.listen_addr = C3exThis.listen_addr ∧
        C3exThat.listen_port = 6881 ∧
        (false = true → C3exThis.listen_port ≠ 6881) ∧
        CompareAtomsByUsefulness C3exThis C3exThat = false) ∧
      (on_got_port C3exSwarm (10, 54321) C3exThis 6881 false).peers
        = markPurge C3exSwarm.peers C3exThis.id :=
  ⟨⟨by decide, by decide, by decide, by decide, by decide, by decide⟩,
    ((C3_port_collision_amended C3exSwarm (10, 54321) C3exThis C3exThat 6881 false
        (by decide) (by decide) (by decide) (by decide) (by decide)).2 (by decide)).1⟩

-- --- C6 -------------------------------------------------------------------

/-- Claim C6: on a successful handshake completion (`result.is_connected`)
for a running swarm, the connection is rejected — the callback returns
false, no peer is added (`peers_count` and both stat counters are
unchanged) and the info's `connection_failure_count` is untouched —
exactly when the `tr_peer_info` is banned, or the swarm is at or above
the torrent's peer limit, or the info is already connected (a missing
info counts as fresh: not banned, not connected, zero failures). -/
theorem C6_admission (s : HsSwarm) (r : HandshakeResult)
    (hrun : s.is_running = true) (hok : r.is_connected = true)
    (_hout : r.is_incoming = false → s.info.isSome = true) :
    ((on_handshake_done s r).2 = false ↔
        (s.info.map HsPeerInfo.is_banned).getD false = true ∨
          s.peer_limit ≤ s.peers_count ∨
          (s.info.map HsPeerInfo.is_connected).getD false = true) ∧
      ((on_handshake_done s r).2 = false →
        (on_handshake_done s r).1.peers_count = s.peers_count ∧
          (on_handshake_done s r).1.stats_peer_count = s.stats_peer_count ∧
          (on_handshake_done s r).1.stats_from_count = s.stats_from_count ∧
          ((on_handshake_done s r).1.info.map HsPeerInfo.connection_failure_count)
            = some ((s.info.map HsPeerInfo.connection_failure_count).getD 0)) := by
  clear _hout
  obtain ⟨pc, spc, sfc, pl, run, info⟩ := s
  simp only [HsSwarm.is_running] at hrun
  subst hrun
  cases info with
  | none =>
    by_cases hlim : pl ≤ pc <;>
      cases hu : r.is_utp <;> cases hi : r.is_incoming <;>
        simp [on_handshake_done, hok, hs_ensured_info, hs_fresh_incoming_info, hlim, hu, hi]
  | some i =>
    obtain ⟨bn, cn, cf, cb, ut⟩ := i
    by_cases hlim : pl ≤ pc <;> cases bn <;> cases cn <;>
      cases hu : r.is_utp <;> cases hi : r.is_incoming <;>
        simp [on_handshake_done, hok, hs_ensured_info, hlim, hu, hi]

/-- Witness for `C6_admission`: a banned peer's incoming handshake on a
running, non-full swarm. -/
theorem C6_admission_witness :
    ((⟨3, 3, 1, 50, true, some ⟨true, false, 2, none, none⟩⟩ : HsSwarm).is_running = true ∧
        (⟨true, true, false, true⟩ : HandshakeResult).is_connected = true ∧
        ((⟨true, true, false, true⟩ : HandshakeResult).is_incoming = false →
          (⟨3, 3, 1, 50, true, some ⟨true, false, 2, none, none⟩⟩ : HsSwarm).info.isSome
            = true)) ∧
      ((on_handshake_done (⟨3, 3, 1, 50, true, some ⟨true, false, 2, none, none⟩⟩ : HsSwarm)
            ⟨true, true, false, true⟩).2 = false ↔
        ((some (⟨true, false, 2, none, none⟩ : HsPeerInfo)).map HsPeerInfo.is_banned).getD false
            = true ∨
          (50 : Nat) ≤ 3 ∨
          ((some (⟨true, false, 2, none, none⟩ : HsPeerInfo)).map HsPeerInfo.is_connected).getD
              false = true) :=
  ⟨⟨rfl, rfl, by decide⟩,
    (C6_admission ⟨3, 3, 1, 50, true, some ⟨true, false, 2, none, none⟩⟩
        ⟨true, true, false, true⟩ rfl rfl (by decide)).1⟩

-- --- C7 -------------------------------------------------------------------

/-- Claim C7 is false on the code: when at most
`OutboundCandidateListCapacity` (36) candidates are generated,
`get_peer_candidates` never sorts, so a pulse dials the first 9 in
swarm-iteration order rather than the 9 with the lowest scores — here a
rebuilt 10-candidate cache (scores descending 9..0) keeps its single
best candidate (score 0) cached while dialing a score-9 one. -/
theorem C7_counterexample :
    ∃ a ∈ (make_new_peer_connections [] C7exCands (fun _ => true)).1,
      ∃ r ∈ (make_new_peer_connections [] C7exCands (fun _ => true)).2, r.score < a.score := by
  decide

/-- Claim C7 (amended): a `make_new_peer_connections` pulse initiates at
most `MaxConnectionsPerPulse = 9` connection attempts and shrinks the
(possibly just rebuilt) cache by exactly `min(size, 9)`; the dialed
candidates are the lowest-scored ones provided the cache was rebuilt this
pulse from more than `OutboundCandidateListCapacity` generated candidates
(only then does `get_peer_candidates` sort). -/
theorem C7_dial_amended (cached generated : List Candidate) (alive : Candidate → Bool) :
    (make_new_peer_connections cached generated alive).1.length ≤ MaxConnectionsPerPulse ∧
      (make_new_peer_connections cached generated alive).2.length
        = (if cached.isEmpty then get_peer_candidates generated else cached).length -
            min (if cached.isEmpty then get_peer_candidates generated else cached).length
              MaxConnectionsPerPulse ∧
      (cached = [] → OutboundCandidateListCapacity < generated.length →
        ∀ a ∈ (make_new_peer_connections cached generated alive).1,
          ∀ r ∈ (make_new_peer_connections cached generated alive).2, a.score ≤ r.score) := by
  refine ⟨?_, ?_, ?_⟩
  · calc (make_new_peer_connections cached generated alive).1.length
        ≤ ((if cached.isEmpty then get_peer_candidates generated else cached).reverse.take
            (min (if cached.isEmpty then get_peer_candidates generated else cached).length
              MaxConnectionsPerPulse)).length := List.length_filter_le _ _
      _ ≤ min (if cached.isEmpty then get_peer_candidates generated else cached).length
            MaxConnectionsPerPulse := by
          rw [List.length_take]; exact min_le_left _ _
      _ ≤ MaxConnectionsPerPulse := min_le_right _ _
  · simp only [make_new_peer_connections, List.length_take]
    exact min_eq_left (Nat.sub_le _ _)
  · intro hc hcap a ha r hr
    subst hc
    set le : Candidate → Candidate → Bool := fun a b => decide (a.score ≤ b.score) with hle
    set kt : List Candidate :=
      (generated.mergeSort le).take OutboundCandidateListCapacity with hkt
    have hgp : get_peer_candidates generated = kt.reverse := by
      simp only [get_peer_candidates, hcap, if_true, hkt]
    have hsorted : kt.Pairwise (fun a b => le a b = true) := by
      refine List.Pairwise.sublist (List.take_sublist _ _) ?_
      refine List.sorted_mergeSort ?_ ?_ generated
      · intro a b c hab hbc
        simp only [hle, decide_eq_true_eq] at *
        omega
      · intro a b
        simp only [hle, Bool.or_eq_true, decide_eq_true_eq]
        exact Nat.le_total _ _
    simp only [make_new_peer_connections, List.isEmpty_nil, if_true, hgp] at ha hr
    set n := min kt.reverse.length MaxConnectionsPerPulse with hn
    have hnle : n ≤ kt.length := by
      rw [hn, List.length_reverse]; exact min_le_left _ _
    have ha2 : a ∈ kt.take n := by
      rw [List.reverse_reverse] at ha
      exact (List.mem_filter.mp ha).1
    have hr2 : r ∈ kt.drop n := by
      rw [List.length_reverse, List.take_reverse, Nat.sub_sub_self hnle] at hr
      exact List.mem_reverse.mp hr
    have hsplit := List.pairwise_append.mp (by rw [List.take_append_drop n kt]; exact hsorted)
    have hcross := hsplit.2.2 a ha2 r hr2
    simpa [hle] using hcross

/-- Witness for `C7_dial_amended` on a 37-candidate generation (over the
cache capacity, so the rebuild sorts). -/
theorem C7_dial_amended_witness :
    (([] : List Candidate) = [] ∧
        OutboundCandidateListCapacity < (List.replicate 37 (⟨1, 0, 0, 1⟩ : Candidate)).length) ∧
      ∀ a ∈ (make_new_peer_connections [] (List.replicate 37 ⟨1, 0, 0, 1⟩) (fun _ => true)).1,
        ∀ r ∈ (make_new_peer_connections [] (List.replicate 37 ⟨1, 0, 0, 1⟩) (fun _ => true)).2,
          a.score ≤ r.score :=
  ⟨⟨rfl, by decide⟩,
    (C7_dial_amended [] (List.replicate 37 ⟨1, 0, 0, 1⟩) (fun _ => true)).2.2 rfl (by decide)⟩

-- --- C8 -------------------------------------------------------------------

/-- The decode loop yields exactly as many entries as it was asked for. -/
theorem from_compact_go_fst_length (ab : Nat) :
    ∀ (n : Nat) (walk : List Nat), ((from_compact_go ab walk n).1).length = n := by
  intro n
  induction n with
  | zero => intro walk; rfl
  | succ k ih => intro walk; simp [from_compact_go, ih]

/-- After `n` iterations the walk pointer sits `(ab + 2) * n` bytes in. -/
theorem from_compact_go_snd (ab : Nat) :
    ∀ (n : Nat) (walk : List Nat), (from_compact_go ab walk n).2 = walk.drop ((ab + 2) * n) := by
  intro n
  induction n with
  | zero => intro walk; simp [from_compact_go]
  | succ k ih =>
    intro walk
    simp only [from_compact_go, ih, List.drop_drop]
    congr 1
    ring

/-- The decoder yields `compact_len / stride` entries. -/
theorem from_compact_length (ab tag : Nat) (compact : List Nat) (added_f : Option (List Nat)) :
    (from_compact ab tag compact added_f).length = compact.length / (ab + 2) := by
  simp [from_compact, List.length_zip, from_compact_go_fst_length]

/-- Entry `i` carries `added_f[i]` exactly when the flag list's length is
the entry count. -/
theorem from_compact_flags (ab tag : Nat) (compact fs : List Nat) (i : Nat)
    (h : i < compact.length / (ab + 2)) :
    ((from_compact ab tag compact (some fs))[i]?).map tr_pex.flags
      = some (if compact.length / (ab + 2) = fs.length then some (fs.getD i 0) else none) := by
  have hplen : ((from_compact_go ab compact (compact.length / (ab + 2))).1).length
      = compact.length / (ab + 2) := from_compact_go_fst_length ab _ _
  have hpi : i < ((from_compact_go ab compact (compact.length / (ab + 2))).1).length := by
    omega
  have hzip : ((List.range (compact.length / (ab + 2))).zip
      (from_compact_go ab compact (compact.length / (ab + 2))).1)[i]?
      = some (i, (from_compact_go ab compact (compact.length / (ab + 2))).1[i]) := by
    rw [List.getElem?_zip_eq_some]
    exact ⟨List.getElem?_range h, List.getElem?_eq_getElem hpi⟩
  simp only [from_compact, List.getElem?_map, hzip]
  rfl

/-- With no `added_f` no entry carries a flag byte. -/
theorem from_compact_flags_none (ab tag : Nat) (compact : List Nat) (i : Nat)
    (h : i < compact.length / (ab + 2)) :
    ((from_compact ab tag compact none)[i]?).map tr_pex.flags = some none := by
  have hplen : ((from_compact_go ab compact (compact.length / (ab + 2))).1).length
      = compact.length / (ab + 2) := from_compact_go_fst_length ab _ _
  have hpi : i < ((from_compact_go ab compact (compact.length / (ab + 2))).1).length := by
    omega
  have hzip : ((List.range (compact.length / (ab + 2))).zip
      (from_compact_go ab compact (compact.length / (ab + 2))).1)[i]?
      = some (i, (from_compact_go ab compact (compact.length / (ab + 2))).1[i]) := by
    rw [List.getElem?_zip_eq_some]
    exact ⟨List.getElem?_range h, List.getElem?_eq_getElem hpi⟩
  simp only [from_compact, List.getElem?_map, hzip]
  rfl

/-- The decode loop consumes exactly `(compact_len / stride) * stride`
bytes. -/
theorem from_compact_consumed (ab : Nat) (compact : List Nat) :
    compact.length - ((from_compact_go ab compact (compact.length / (ab + 2))).2).length
      = (compact.length / (ab + 2)) * (ab + 2) := by
  rw [from_compact_go_snd, List.length_drop,
    Nat.mul_comm (compact.length / (ab + 2)) (ab + 2)]
  have h : (ab + 2) * (compact.length / (ab + 2)) ≤ compact.length := by
    rw [Nat.mul_comm]; exact Nat.div_mul_le_self _ _
  omega

/-- Claim C8: `tr_pex::from_compact_ipv4` (stride 6) and
`from_compact_ipv6` (stride 18) yield exactly `N = ⌊compact_len/stride⌋`
entries and consume exactly `N * stride` bytes, and the parallel
`added_f` flags are applied to the entries exactly when `added_f_len`
equals `N` (absent or mismatched flag data leaves every entry's flag
unset). -/
theorem C8_pex_compact (compact fs : List Nat) (added_f : Option (List Nat)) :
    ((tr_pex.from_compact_ipv4 compact added_f).length
        = compact.length / CompactSockAddrBytes4 ∧
      from_compact_ipv4_consumed compact
        = (compact.length / CompactSockAddrBytes4) * CompactSockAddrBytes4 ∧
      (∀ i, i < compact.length / CompactSockAddrBytes4 →
        ((tr_pex.from_compact_ipv4 compact (some fs))[i]?).map tr_pex.flags
          = some (if compact.length / CompactSockAddrBytes4 = fs.length
              then some (fs.getD i 0) else none) ∧
          ((tr_pex.from_compact_ipv4 compact none)[i]?).map tr_pex.flags = some none)) ∧
      ((tr_pex.from_compact_ipv6 compact added_f).length
          = compact.length / CompactSockAddrBytes6 ∧
        from_compact_ipv6_consumed compact
          = (compact.length / CompactSockAddrBytes6) * CompactSockAddrBytes6 ∧
        (∀ i, i < compact.length / CompactSockAddrBytes6 →
          ((tr_pex.from_compact_ipv6 compact (some fs))[i]?).map tr_pex.flags
            = some (if compact.length / CompactSockAddrBytes6 = fs.length
                then some (fs.getD i 0) else none) ∧
            ((tr_pex.from_compact_ipv6 compact none)[i]?).map tr_pex.flags = some none)) := by
  refine ⟨⟨?_, ?_, fun i hi => ⟨?_, ?_⟩⟩, ⟨?_, ?_, fun i hi => ⟨?_, ?_⟩⟩⟩
  · exact from_compact_length 4 0 compact added_f
  · exact from_compact_consumed 4 compact
  · exact from_compact_flags 4 0 compact fs i hi
  · exact from_compact_flags_none 4 0 compact i hi
  · exact from_compact_length 16 1 compact added_f
  · exact from_compact_consumed 16 compact
  · exact from_compact_flags 16 1 compact fs i hi
  · exact from_compact_flags_none 16 1 compact i hi

/-- Witness for `C8_pex_compact` on a 12-byte (two-entry) ipv4 string
with a matching 2-byte flag list. -/
theorem C8_pex_compact_witness :
    (0 : Nat) < [1, 2, 3, 4, 0, 80, 5, 6, 7, 8, 0, 81].length / CompactSockAddrBytes4 ∧
      (((tr_pex.from_compact_ipv4 [1, 2, 3, 4, 0, 80, 5, 6, 7, 8, 0, 81]
            (some [1, 2]))[0]?).map tr_pex.flags
          = some (if [1, 2, 3, 4, 0, 80, 5, 6, 7, 8, 0, 81].length / CompactSockAddrBytes4
                = [1, 2].length
              then some ([1, 2].getD 0 0) else none) ∧
        ((tr_pex.from_compact_ipv4 [1, 2, 3, 4, 0, 80, 5, 6, 7, 8, 0, 81] none)[0]?).map
            tr_pex.flags = some none) :=
  ⟨by decide,
    (C8_pex_compact [1, 2, 3, 4, 0, 80, 5, 6, 7, 8, 0, 81] [1, 2] none).1.2.2 0 (by decide)⟩

-- --- C9 -------------------------------------------------------------------

/-- A single `ensure_info_exists` leaves its key absorbed: re-ensuring the
same (flags, source) there changes nothing. -/
theorem ensure_absorbs (p : PexPool) (k : SockAddr) (fl fr : Nat) :
    pexAbsorbed (ensure_info_exists p k fl fr) k fl fr := by
  unfold pexAbsorbed
  cases hp : p k with
  | some i =>
    refine ⟨(i.found_at fr).set_pex_flags fl, by simp [ensure_info_exists, hp], ?_⟩
    obtain ⟨ff, fb, flg⟩ := i
    simp [PexPeerInfo.found_at, PexPeerInfo.set_pex_flags, min_assoc, Nat.or_assoc]
  | none =>
    refine ⟨PexPeerInfo.make fl fr, by simp [ensure_info_exists, hp], ?_⟩
    simp [PexPeerInfo.found_at, PexPeerInfo.set_pex_flags, PexPeerInfo.make]

/-- Absorption survives any further `ensure_info_exists`, on the same or
another key (`min`/`|||` updates only strengthen the entry). -/
theorem ensure_preserves_absorbed (p : PexPool) (k k2 : SockAddr) (fl fr fl2 fr2 : Nat)
    (h : pexAbsorbed p k fl fr) :
    pexAbsorbed (ensure_info_exists p k2 fl2 fr2) k fl fr := by
  obtain ⟨i, hpk, habs⟩ := h
  by_cases hk : k = k2
  · subst hk
    refine ⟨(i.found_at fr2).set_pex_flags fl2, by simp [ensure_info_exists, hpk], ?_⟩
    obtain ⟨ff, fb, flg⟩ := i
    simp only [PexPeerInfo.found_at, PexPeerInfo.set_pex_flags, PexPeerInfo.mk.injEq,
      and_true, true_and] at habs ⊢
    obtain ⟨h1, h2⟩ := habs
    constructor
    · rw [min_right_comm, h1]
    · rw [Nat.or_assoc, Nat.or_comm fl2 fl, ← Nat.or_assoc, h2]
  · exact ⟨i, by simp [ensure_info_exists, hk, hpk], habs⟩

/-- `ensure_info_exists` is the identity on an absorbed key. -/
theorem ensure_eq_of_absorbed (p : PexPool) (k : SockAddr) (fl fr : Nat)
    (h : pexAbsorbed p k fl fr) :
    ensure_info_exists p k fl fr = p := by
  obtain ⟨i, hpk, habs⟩ := h
  funext k2
  unfold ensure_info_exists
  by_cases hk : k2 = k
  · subst hk
    rw [if_pos rfl, hpk]
    show some ((i.found_at fr).set_pex_flags fl) = some i
    rw [habs]
  · rw [if_neg hk]

/-- `tr_peerMgrAddPex` splits into its pool fold and a pure count of the
accepted entries (the count never depends on the pool). -/
theorem tr_peerMgrAddPex_eq (p : PexPool) (frm : Nat) (l : List PexEntry) :
    tr_peerMgrAddPex p frm l = (addPexPool p frm l, l.countP (pexAccepted frm)) := by
  suffices h : ∀ (l2 : List PexEntry) (q : PexPool) (c : Nat),
      l2.foldl (fun acc px => if pexAccepted frm px then
        (ensure_info_exists acc.1 (px.addr, px.port) px.flags frm, acc.2 + 1) else acc) (q, c)
      = (addPexPool q frm l2, c + l2.countP (pexAccepted frm)) by
    simpa [tr_peerMgrAddPex] using h l p 0
  intro l2
  induction l2 with
  | nil => intro q c; simp [addPexPool]
  | cons px tl ih =>
    intro q c
    by_cases hpx : pexAccepted frm px
    · simp only [List.foldl_cons, hpx, if_true, ih, List.countP_cons, addPexPool]
      refine Prod.ext rfl ?_
      simp [hpx]
      omega
    · simp only [List.foldl_cons, hpx, if_false, ih, List.countP_cons, addPexPool]
      simp [hpx]

/-- The whole pool fold preserves absorption. -/
theorem addPexPool_preserves (frm : Nat) (l : List PexEntry) (k : SockAddr) (fl fr : Nat) :
    ∀ (p : PexPool), pexAbsorbed p k fl fr → pexAbsorbed (addPexPool p frm l) k fl fr := by
  induction l with
  | nil => intro p h; simpa [addPexPool] using h
  | cons px tl ih =>
    intro p h
    simp only [addPexPool, List.foldl_cons] at *
    by_cases hpx : pexAccepted frm px
    · simp only [hpx, if_true]
      exact ih _ (ensure_preserves_absorbed _ _ _ _ _ _ _ h)
    · simp only [hpx, if_false]
      exact ih _ h

/-- After the pool fold, every accepted entry of the list is absorbed. -/
theorem addPexPool_absorbs (frm : Nat) (l : List PexEntry) :
    ∀ (p : PexPool) (px : PexEntry), px ∈ l → pexAccepted frm px = true →
      pexAbsorbed (addPexPool p frm l) (px.addr, px.port) px.flags frm := by
  induction l with
  | nil => intro p px h; cases h
  | cons hd tl ih =>
    intro p px hmem hacc
    rcases List.mem_cons.mp hmem with heq | htl
    · subst heq
      simp only [addPexPool, List.foldl_cons, hacc, if_true]
      exact addPexPool_preserves _ _ _ _ _ _ (ensure_absorbs _ _ _ _)
    · simp only [addPexPool, List.foldl_cons]
      by_cases hhd : pexAccepted frm hd
      · simp only [hhd, if_true]
        exact ih _ px htl hacc
      · simp only [hhd, if_false]
        exact ih _ px htl hacc

/-- The pool fold is the identity when every accepted entry is already
absorbed. -/
theorem addPexPool_id (p : PexPool) (frm : Nat) (l : List PexEntry)
    (h : ∀ px ∈ l, pexAccepted frm px = true →
      pexAbsorbed p (px.addr, px.port) px.flags frm) :
    addPexPool p frm l = p := by
  induction l with
  | nil => rfl
  | cons hd tl ih =>
    simp only [addPexPool, List.foldl_cons]
    by_cases hhd : pexAccepted frm hd
    · rw [if_pos hhd, ensure_eq_of_absorbed _ _ _ _ (h hd (List.mem_cons_self hd tl) hhd)]
      exact ih fun px hm ha => h px (List.mem_cons_of_mem _ hm) ha
    · rw [if_neg hhd]
      exact ih fun px hm ha => h px (List.mem_cons_of_mem _ hm) ha

/-- Claim C9: `tr_peerMgrAddPex` is idempotent — feeding the same pex
array from the same source twice yields exactly the same
connectable-pool state and the same `n_used` count as feeding it once. -/
theorem C9_addPex_idempotent (p : PexPool) (frm : Nat) (l : List PexEntry) :
    tr_peerMgrAddPex (tr_peerMgrAddPex p frm l).1 frm l = tr_peerMgrAddPex p frm l := by
  rw [tr_peerMgrAddPex_eq p frm l]
  rw [tr_peerMgrAddPex_eq]
  refine Prod.ext ?_ rfl
  simp only
  exact addPexPool_id _ _ _ fun px hm ha => addPexPool_absorbs frm l p px hm ha

-- --- C1 -------------------------------------------------------------------

/-- Mapping an index-recovering projection over a `filterMap` of an index
list yields a sublist of the indices. -/
theorem map_idx_filterMap_sublist {α : Type} (f : Nat → Option α) (g : α → Nat) (l : List Nat)
    (h : ∀ i c, f i = some c → g c = i) :
    ((l.filterMap f).map g).Sublist l := by
  induction l with
  | nil => simp
  | cons a tl ih =>
    cases hfa : f a with
    | none => simp only [List.filterMap_cons, hfa]; exact ih.cons a
    | some c =>
      simp only [List.filterMap_cons, hfa, List.map_cons, h a c hfa]
      exact ih.cons₂ a

/-- The build loop emits each peer index at most once. -/
theorem rechokeBuild_idx_nodup (e : RechokeEnv) (ch : List Bool) (opt : Option Nat) :
    ((rechokeBuild e ch opt).map (·.idx)).Nodup := by
  refine List.Sublist.nodup ?_ (List.nodup_range e.peers.length)
  refine map_idx_filterMap_sublist _ _ _ ?_
  intro i c hc
  cases hp : e.peers[i]? with
  | none => simp [hp] at hc
  | some p =>
    simp only [hp] at hc
    by_cases h1 : p.is_seed <;> by_cases h2 : e.choke_all <;> by_cases h3 : opt = some i <;>
      simp [h1, h2, h3] at hc
    simp [← hc]

/-- What membership in the `choked` build vector means: an existing,
non-seed peer, with `choke_all` off, not the optimistic one, entered as
initially choked with its previous choke state recorded. -/
theorem rechokeBuild_mem (e : RechokeEnv) (ch : List Bool) (opt : Option Nat)
    (c : ChokeData) (hc : c ∈ rechokeBuild e ch opt) :
    ∃ p, e.peers[c.idx]? = some p ∧ p.is_seed = false ∧ e.choke_all = false ∧
      opt ≠ some c.idx ∧ c.is_interested = p.is_interested ∧ c.is_choked = true ∧
      c.was_choked = ch.getD c.idx true := by
  obtain ⟨i, _, hfi⟩ := List.mem_filterMap.mp hc
  cases hp : e.peers[i]? with
  | none => simp [hp] at hfi
  | some p =>
    simp only [hp] at hfi
    by_cases h1 : p.is_seed <;> by_cases h2 : e.choke_all <;> by_cases h3 : opt = some i <;>
      simp [h1, h2, h3] at hfi
    exact ⟨p, by simp [← hfi, hp, h1, h2, h3]⟩

/-- Every eligible peer index makes it into the build vector. -/
theorem rechokeBuild_idx_mem (e : RechokeEnv) (ch : List Bool) (opt : Option Nat)
    (i : Nat) (p : RechokePeer) (hp : e.peers[i]? = some p) (h1 : p.is_seed = false)
    (h2 : e.choke_all = false) (h3 : opt ≠ some i) :
    i ∈ (rechokeBuild e ch opt).map (·.idx) := by
  have hi : i < e.peers.length := by
    by_contra h
    rw [List.getElem?_eq_none (Nat.le_of_not_lt h)] at hp
    cases hp
  refine List.mem_map.mpr ⟨⟨i, p.rate, p.salt, p.is_interested, ch.getD i true, true⟩, ?_, rfl⟩
  refine List.mem_filterMap.mpr ⟨i, List.mem_range.mpr hi, ?_⟩
  simp [hp, h1, h2, h3]

/-- The capping loop only edits `is_choked`: prefix plus suffix carry
exactly the indices of the input, in order. -/
theorem capLoop_append_idx (s : Nat) (m : Bool) :
    ∀ (l : List ChokeData) (u : Nat),
      ((capLoop s m u l).1 ++ (capLoop s m u l).2).map (·.idx) = l.map (·.idx) := by
  intro l
  induction l with
  | nil => intro u; simp [capLoop]
  | cons x xs ih =>
    intro u
    by_cases hu : s ≤ u
    · simp [capLoop, hu]
    · simp only [capLoop, if_neg hu, List.cons_append, List.map_cons]
      rw [ih]

/-- Each visited entry descends from an input entry with the same index
and interest flag. -/
theorem capLoop_fst_mem (s : Nat) (m : Bool) :
    ∀ (l : List ChokeData) (u : Nat) (c : ChokeData), c ∈ (capLoop s m u l).1 →
      ∃ c2 ∈ l, c.idx = c2.idx ∧ c.is_interested = c2.is_interested := by
  intro l
  induction l with
  | nil => intro u c hc; simp [capLoop] at hc
  | cons x xs ih =>
    intro u c hc
    by_cases hu : s ≤ u
    · simp [capLoop, hu] at hc
    · simp only [capLoop, if_neg hu, List.mem_cons] at hc
      rcases hc with heq | htl
      · exact ⟨x, List.mem_cons_self x xs, by simp [heq]⟩
      · obtain ⟨c2, hc2, h⟩ := ih _ c htl
        exact ⟨c2, List.mem_cons_of_mem _ hc2, h⟩

/-- The unvisited suffix is returned untouched. -/
theorem capLoop_snd_sub (s : Nat) (m : Bool) :
    ∀ (l : List ChokeData) (u : Nat) (c : ChokeData), c ∈ (capLoop s m u l).2 → c ∈ l := by
  intro l
  induction l with
  | nil => intro u c hc; simp [capLoop] at hc
  | cons x xs ih =>
    intro u c hc
    by_cases hu : s ≤ u
    · simpa [capLoop, hu] using hc
    · simp only [capLoop, if_neg hu] at hc
      exact List.mem_cons_of_mem _ (ih _ c hc)

/-- The capping loop unchokes at most `slots - u` interested entries when
entered with counter `u`. -/
theorem capLoop_fst_count (s : Nat) (m : Bool) :
    ∀ (l : List ChokeData) (u : Nat),
      (capLoop s m u l).1.countP (fun c => !c.is_choked && c.is_interested) ≤ s - u := by
  intro l
  induction l with
  | nil => intro u; simp [capLoop]
  | cons x xs ih =>
    intro u
    by_cases hu : s ≤ u
    · simp [capLoop, hu]
    · simp only [capLoop, if_neg hu, List.countP_cons]
      by_cases hint : x.is_interested
      · have hrec := ih (u + 1)
        simp only [hint, if_true]
        split <;> (try split) <;> omega
      · have hrec := ih u
        simp only [hint, Bool.and_false, Bool.false_eq_true, if_false]
        omega

/-- The final `set_choke` sweep does not change the vector length. -/
theorem applyChokes_length (l : List ChokeData) :
    ∀ (b : List Bool), (applyChokes b l).length = b.length := by
  induction l with
  | nil => intro b; rfl
  | cons c tl ih =>
    intro b
    simp only [applyChokes, List.foldl_cons] at *
    rw [ih, List.length_set]

/-- A peer listed in no `ChokeData` entry keeps its base choke state. -/
theorem applyChokes_getD_not_mem (l : List ChokeData) :
    ∀ (b : List Bool) (i : Nat) (d : Bool), i ∉ l.map (·.idx) →
      (applyChokes b l).getD i d = b.getD i d := by
  induction l with
  | nil => intro b i d _; rfl
  | cons c tl ih =>
    intro b i d hni
    simp only [List.map_cons, List.mem_cons, not_or] at hni
    simp only [applyChokes, List.foldl_cons] at *
    rw [ih _ _ _ hni.2, List.getD_eq_getElem?_getD, List.getD_eq_getElem?_getD,
      List.getElem?_set_ne (fun h => hni.1 h.symm)]

/-- With distinct indices, a listed peer ends with its entry's decision. -/
theorem applyChokes_getD_mem (l : List ChokeData) :
    ∀ (b : List Bool) (c : ChokeData), (l.map (·.idx)).Nodup → c ∈ l → c.idx < b.length →
      (applyChokes b l).getD c.idx true = c.is_choked := by
  induction l with
  | nil => intro b c _ hc; cases hc
  | cons x tl ih =>
    intro b c hnd hc hlt
    simp only [List.map_cons, List.nodup_cons] at hnd
    rcases List.mem_cons.mp hc with heq | htl
    · subst heq
      have hstep : applyChokes b (c :: tl) = applyChokes (b.set c.idx c.is_choked) tl := rfl
      rw [hstep, applyChokes_getD_not_mem tl _ _ _ hnd.1, List.getD_eq_getElem?_getD,
        List.getElem?_set_self hlt]
      rfl
    · have hstep : applyChokes b (x :: tl) = applyChokes (b.set x.idx x.is_choked) tl := rfl
      rw [hstep]
      exact ih _ c hnd.2 htl (by rw [List.length_set]; exact hlt)

/-- Writing one entry's decision changes the outside-count by at most the
entry's own unchoked-and-interested contribution. -/
theorem cntExcl_set_le (e : RechokeEnv) (c : ChokeData) (tlidx : List Nat) (b : List Bool)
    (hlt : c.idx < b.length) :
    cntExcl e tlidx (b.set c.idx c.is_choked)
      ≤ (if (!c.is_choked && peerInterested e c.idx) = true then 1 else 0)
        + cntExcl e (c.idx :: tlidx) b := by
  unfold cntExcl
  by_cases hP : (!c.is_choked && peerInterested e c.idx) = true
  · rw [if_pos hP]
    calc ((Finset.range e.peers.length).filter fun i =>
            i ∉ tlidx ∧ (b.set c.idx c.is_choked).getD i true = false ∧ peerInterested e i
              = true).card
        ≤ (insert c.idx ((Finset.range e.peers.length).filter fun i =>
            i ∉ c.idx :: tlidx ∧ b.getD i true = false ∧ peerInterested e i = true)).card := by
          refine Finset.card_le_card ?_
          intro i hi
          simp only [Finset.mem_filter, Finset.mem_range] at hi
          obtain ⟨hin, hni, hval, hint⟩ := hi
          by_cases hic : i = c.idx
          · exact hic ▸ Finset.mem_insert_self _ _
          · refine Finset.mem_insert_of_mem ?_
            simp only [Finset.mem_filter, Finset.mem_range, List.mem_cons, not_or]
            rw [List.getD_eq_getElem?_getD, List.getElem?_set_ne (fun h => hic h.symm),
              ← List.getD_eq_getElem?_getD] at hval
            exact ⟨hin, ⟨hic, hni⟩, hval, hint⟩
      _ ≤ ((Finset.range e.peers.length).filter fun i =>
            i ∉ c.idx :: tlidx ∧ b.getD i true = false ∧ peerInterested e i = true).card + 1 :=
          Finset.card_insert_le _ _
      _ = 1 + ((Finset.range e.peers.length).filter fun i =>
            i ∉ c.idx :: tlidx ∧ b.getD i true = false ∧ peerInterested e i = true).card := by
          omega
  · rw [if_neg hP]
    simp only [Nat.zero_add]
    refine Finset.card_le_card ?_
    intro i hi
    simp only [Finset.mem_filter, Finset.mem_range] at hi ⊢
    obtain ⟨hin, hni, hval, hint⟩ := hi
    by_cases hic : i = c.idx
    · exfalso
      subst hic
      rw [List.getD_eq_getElem?_getD, List.getElem?_set_self hlt] at hval
      simp only [Option.getD_some] at hval
      rw [hval, hint] at hP
      simp at hP
    · rw [List.getD_eq_getElem?_getD, List.getElem?_set_ne (fun h => hic h.symm),
        ← List.getD_eq_getElem?_getD] at hval
      simp only [List.mem_cons, not_or]
      exact ⟨hin, ⟨hic, hni⟩, hval, hint⟩

/-- After the sweep, the number of unchoked-and-interested peers is
bounded by the entries' contribution plus the unlisted peers'. -/
theorem applyChokes_count_le (e : RechokeEnv) (l : List ChokeData) :
    ∀ (b : List Bool), b.length = e.peers.length → (l.map (·.idx)).Nodup →
      (∀ c ∈ l, c.idx < e.peers.length) →
      countUnchokedInterested e (applyChokes b l)
        ≤ l.countP (fun c => !c.is_choked && peerInterested e c.idx)
          + cntExcl e (l.map (·.idx)) b := by
  induction l with
  | nil =>
    intro b hb _ _
    have h0 : countUnchokedInterested e (applyChokes b []) = cntExcl e [] b := by
      unfold countUnchokedInterested cntExcl applyChokes
      simp
    simp only [List.map_nil, List.countP_nil]
    omega
  | cons c tl ih =>
    intro b hb hnd hbound
    simp only [List.map_cons, List.nodup_cons] at hnd
    have hstep : applyChokes b (c :: tl) = applyChokes (b.set c.idx c.is_choked) tl := rfl
    have hlt : c.idx < b.length := by
      rw [hb]; exact hbound c (List.mem_cons_self c tl)
    have hih := ih (b.set c.idx c.is_choked)
      (by rw [List.length_set]; exact hb) hnd.2
      (fun x hx => hbound x (List.mem_cons_of_mem _ hx))
    have hkey := cntExcl_set_le e c (tl.map (·.idx)) b hlt
    rw [hstep]
    rw [List.countP_cons]
    simp only [List.map_cons]
    omega

/-- The base choke vector covers every peer. -/
theorem rechokeBase_length (e : RechokeEnv) (ch : List Bool) :
    (rechokeBase e ch).length = e.peers.length := by
  simp [rechokeBase]

/-- The base choke state per peer: seeds and (under `choke_all`) everyone
are choked on the spot, the rest keep their previous state. -/
theorem rechokeBase_getD (e : RechokeEnv) (ch : List Bool) (i : Nat) (hi : i < e.peers.length) :
    (rechokeBase e ch).getD i true
      = (match e.peers[i]? with
         | none => true
         | some p =>
           if p.is_seed then true else if e.choke_all then true else ch.getD i true) := by
  unfold rechokeBase
  rw [List.getD_eq_getElem?_getD, List.getElem?_map, List.getElem?_range hi]
  rfl

/-- Among peers not listed in any entry, only the skipped optimistic one
can be unchoked-and-interested. -/
theorem cntExcl_base (e : RechokeEnv) (ch : List Bool) (opt1 : Option Nat) (excl : List Nat)
    (hcov : ∀ i, i ∈ (rechokeBuild e ch opt1).map (·.idx) → i ∈ excl) :
    cntExcl e excl (rechokeBase e ch) ≤ if opt1.isSome then 1 else 0 := by
  have hmem : ∀ i ∈ (Finset.range e.peers.length).filter fun i =>
      i ∉ excl ∧ (rechokeBase e ch).getD i true = false ∧ peerInterested e i = true,
      opt1 = some i := by
    intro i hi
    simp only [Finset.mem_filter, Finset.mem_range] at hi
    obtain ⟨hin, hni, hval, hint⟩ := hi
    rw [rechokeBase_getD e ch i hin] at hval
    cases hp : e.peers[i]? with
    | none => simp only [hp] at hval; cases hval
    | some p =>
      simp only [hp] at hval
      by_cases h1 : p.is_seed
      · rw [if_pos h1] at hval; cases hval
      · rw [if_neg h1] at hval
        by_cases h2 : e.choke_all
        · rw [if_pos h2] at hval; cases hval
        · by_contra hne
          exact hni (hcov i (rechokeBuild_idx_mem e ch opt1 i p hp
            (Bool.not_eq_true _ ▸ h1) (Bool.not_eq_true _ ▸ h2) hne))
  cases opt1 with
  | none =>
    unfold cntExcl
    have hempty : ((Finset.range e.peers.length).filter fun i =>
        i ∉ excl ∧ (rechokeBase e ch).getD i true = false ∧ peerInterested e i = true) = ∅ := by
      refine Finset.eq_empty_of_forall_not_mem fun i hi => ?_
      cases hmem i hi
    rw [hempty]
    simp
  | some k =>
    unfold cntExcl
    simp only [Option.isSome_some, if_true]
    calc ((Finset.range e.peers.length).filter fun i =>
          i ∉ excl ∧ (rechokeBase e ch).getD i true = false ∧ peerInterested e i = true).card
        ≤ ({k} : Finset Nat).card := by
          refine Finset.card_le_card fun i hi => ?_
          have := hmem i hi
          rw [Finset.mem_singleton]
          exact (Option.some.injEq _ _ ▸ this).symm
      _ = 1 := Finset.card_singleton k

/-- A rechoke pulse ends in one of two shapes: no optimistic choice (the
suffix entries stay choked and the optimistic slot ages), or a fresh
optimistic peer — an interested suffix entry — is unchoked with the
scaler reset. -/
theorem rechokeUploads_dichotomy (s : RechokeState) (e : RechokeEnv) (opt1 : Option Nat)
    (scaler1 : Nat) (cap : List ChokeData × List ChokeData)
    (hopt1 : opt1 = if 0 < s.scaler then s.optimistic else none)
    (hscaler1 : scaler1 = if 0 < s.scaler then s.scaler - 1 else s.scaler)
    (hcap : cap = capLoop e.upload_slots e.is_maxed_out 0
      (rechokeSort (rechokeBuild e s.chokes opt1))) :
    rechokeUploads s e
        = ⟨applyChokes (rechokeBase e s.chokes) (cap.1 ++ cap.2), opt1, scaler1⟩
      ∨ ∃ c, c ∈ cap.2 ∧ c.is_interested = true ∧ opt1 = none ∧ e.is_maxed_out = false ∧
          rechokeUploads s e
            = ⟨applyChokes (rechokeBase e s.chokes)
                (cap.1 ++ cap.2.map fun x =>
                  if x.idx = c.idx then { x with is_choked := false } else x),
              some c.idx, OptimisticUnchokeMultiplier⟩ := by
  subst hopt1 hscaler1 hcap
  unfold rechokeUploads
  simp only []
  by_cases hcond : (if 0 < s.scaler then s.optimistic else none) = none
      ∧ e.is_maxed_out = false
      ∧ (capLoop e.upload_slots e.is_maxed_out 0
          (rechokeSort (rechokeBuild e s.chokes
            (if 0 < s.scaler then s.optimistic else none)))).2 ≠ []
  case pos =>
    rw [if_pos hcond]
    cases hfil : (capLoop e.upload_slots e.is_maxed_out 0
        (rechokeSort (rechokeBuild e s.chokes
          (if 0 < s.scaler then s.optimistic else none)))).2.filter (·.is_interested) with
    | nil => exact Or.inl rfl
    | cons c0 cs =>
      have hk : e.pick % (c0 :: cs).length < (c0 :: cs).length :=
        Nat.mod_lt _ (Nat.succ_pos _)
      have hmemf : (c0 :: cs).getD (e.pick % (c0 :: cs).length) c0
          ∈ (capLoop e.upload_slots e.is_maxed_out 0
              (rechokeSort (rechokeBuild e s.chokes
                (if 0 < s.scaler then s.optimistic else none)))).2.filter
              (·.is_interested) := by
        rw [hfil, List.getD_eq_getElem (c0 :: cs) c0 hk]
        exact List.getElem_mem _
      have hmem2 := List.mem_filter.mp hmemf
      refine Or.inr ⟨(c0 :: cs).getD (e.pick % (c0 :: cs).length) c0, hmem2.1, ?_, hcond.1,
        hcond.2.1, ?_⟩
      · simpa using hmem2.2
      · rfl
  case neg =>
    rw [if_neg hcond]
    exact Or.inl rfl

/-- Core bound: a pulse ends with at most `uploadSlots` + (suffix
contribution) + (1 for a skipped optimistic peer) unchoked-and-interested
peers. -/
theorem rechoke_count_core (e : RechokeEnv) (ch : List Bool) (opt1 : Option Nat)
    (extra : List ChokeData) (kextra : Nat)
    (hidx : extra.map (·.idx)
      = ((capLoop e.upload_slots e.is_maxed_out 0
          (rechokeSort (rechokeBuild e ch opt1))).2).map (·.idx))
    (hcnt : extra.countP (fun c => !c.is_choked && peerInterested e c.idx) ≤ kextra) :
    countUnchokedInterested e (applyChokes (rechokeBase e ch)
        ((capLoop e.upload_slots e.is_maxed_out 0
          (rechokeSort (rechokeBuild e ch opt1))).1 ++ extra))
      ≤ e.upload_slots + kextra + (if opt1.isSome then 1 else 0) := by
  have hperm : (rechokeSort (rechokeBuild e ch opt1)).Perm (rechokeBuild e ch opt1) :=
    List.perm_insertionSort _ _
  have hidxeq : (((capLoop e.upload_slots e.is_maxed_out 0
        (rechokeSort (rechokeBuild e ch opt1))).1
      ++ (capLoop e.upload_slots e.is_maxed_out 0
        (rechokeSort (rechokeBuild e ch opt1))).2).map (·.idx))
      = (rechokeSort (rechokeBuild e ch opt1)).map (·.idx) :=
    capLoop_append_idx _ _ _ _
  have hnodup_srt : ((rechokeSort (rechokeBuild e ch opt1)).map (·.idx)).Nodup :=
    ((hperm.map _).nodup_iff).mpr (rechokeBuild_idx_nodup e ch opt1)
  have hnodup_cap := hidxeq ▸ hnodup_srt
  have hproc_idx : (((capLoop e.upload_slots e.is_maxed_out 0
        (rechokeSort (rechokeBuild e ch opt1))).1 ++ extra).map (·.idx))
      = (((capLoop e.upload_slots e.is_maxed_out 0
        (rechokeSort (rechokeBuild e ch opt1))).1
      ++ (capLoop e.upload_slots e.is_maxed_out 0
        (rechokeSort (rechokeBuild e ch opt1))).2).map (·.idx)) := by
    rw [List.map_append, List.map_append, hidx]
  have hnodup : (((capLoop e.upload_slots e.is_maxed_out 0
      (rechokeSort (rechokeBuild e ch opt1))).1 ++ extra).map (·.idx)).Nodup :=
    hproc_idx ▸ hnodup_cap
  have hF6 : ∀ c ∈ (capLoop e.upload_slots e.is_maxed_out 0
      (rechokeSort (rechokeBuild e ch opt1))).1,
      c.idx < e.peers.length ∧ c.is_interested = peerInterested e c.idx := by
    intro c hc
    obtain ⟨c2, hc2, hidx2, hint2⟩ := capLoop_fst_mem _ _ _ _ c hc
    obtain ⟨p, hp, _, _, _, hi2, _, _⟩ :=
      rechokeBuild_mem _ _ _ _ (hperm.mem_iff.mp hc2)
    constructor
    · rw [hidx2]; exact (List.getElem?_eq_some.mp hp).1
    · rw [hint2, hidx2, hi2]
      unfold peerInterested
      rw [hp]
      rfl
  have hextra_bound : ∀ c ∈ extra, c.idx < e.peers.length := by
    intro c hc
    have hmm : c.idx ∈ extra.map (·.idx) := List.mem_map_of_mem _ hc
    rw [hidx] at hmm
    obtain ⟨c2, hc2, he⟩ := List.mem_map.mp hmm
    have hc2s : c2 ∈ rechokeSort (rechokeBuild e ch opt1) := capLoop_snd_sub _ _ _ _ c2 hc2
    obtain ⟨p, hp, _⟩ := rechokeBuild_mem _ _ _ _ (hperm.mem_iff.mp hc2s)
    rw [← he]
    exact (List.getElem?_eq_some.mp hp).1
  have hbounds : ∀ c ∈ (capLoop e.upload_slots e.is_maxed_out 0
      (rechokeSort (rechokeBuild e ch opt1))).1 ++ extra, c.idx < e.peers.length := by
    intro c hc
    rcases List.mem_append.mp hc with h | h
    · exact (hF6 c h).1
    · exact hextra_bound c h
  have h1 := applyChokes_count_le e ((capLoop e.upload_slots e.is_maxed_out 0
      (rechokeSort (rechokeBuild e ch opt1))).1 ++ extra) (rechokeBase e ch)
    (rechokeBase_length e ch) hnodup hbounds
  rw [List.countP_append] at h1
  have h3 : ((capLoop e.upload_slots e.is_maxed_out 0
        (rechokeSort (rechokeBuild e ch opt1))).1).countP
        (fun c => !c.is_choked && peerInterested e c.idx)
      = ((capLoop e.upload_slots e.is_maxed_out 0
        (rechokeSort (rechokeBuild e ch opt1))).1).countP
        (fun c => !c.is_choked && c.is_interested) := by
    refine List.countP_congr fun c hc => ?_
    rw [(hF6 c hc).2]
  have h4 := capLoop_fst_count e.upload_slots e.is_maxed_out
    (rechokeSort (rechokeBuild e ch opt1)) 0
  rw [Nat.sub_zero] at h4
  have hcov : ∀ i, i ∈ (rechokeBuild e ch opt1).map (·.idx) →
      i ∈ ((capLoop e.upload_slots e.is_maxed_out 0
        (rechokeSort (rechokeBuild e ch opt1))).1 ++ extra).map (·.idx) := by
    intro i hi
    rw [hproc_idx, hidxeq]
    exact ((hperm.map _).mem_iff).mpr hi
  have h5 := cntExcl_base e ch opt1 _ hcov
  cases opt1 with
  | none => simp only [Option.isSome_none, Bool.false_eq_true, if_false] at h5 ⊢; omega
  | some k => simp only [Option.isSome_some, if_true] at h5 ⊢; omega

/-- Claim C1 (amended): after a rechoke pulse, at most
`uploadSlotsPerTorrent + 1` peers are simultaneously
unchoked-and-interested — the possible extra one being the optimistic
peer, so at most `uploadSlotsPerTorrent` when no optimistic peer is set
after the pulse; every seed peer is choked; while the optimistic peer's
scaler is positive, a pulse leaves its choke state untouched provided it
is not a seed and the torrent can upload; and a freshly chosen optimistic
peer is a non-seed interested peer that ends the pulse unchoked with its
scaler set to 4. -/
theorem C1_rechoke_amended (s : RechokeState) (e : RechokeEnv) :
    countUnchokedInterested e (rechokeUploads s e).chokes ≤ e.upload_slots + 1 ∧
      ((rechokeUploads s e).optimistic = none →
        countUnchokedInterested e (rechokeUploads s e).chokes ≤ e.upload_slots) ∧
      (∀ i p, e.peers[i]? = some p → p.is_seed = true →
        (rechokeUploads s e).chokes.getD i true = true) ∧
      (∀ i p, 0 < s.scaler → s.optimistic = some i → e.peers[i]? = some p →
        p.is_seed = false → e.choke_all = false →
        (rechokeUploads s e).chokes.getD i true = s.chokes.getD i true ∧
          (rechokeUploads s e).optimistic = some i ∧
          (rechokeUploads s e).scaler = s.scaler - 1) ∧
      (s.scaler = 0 → ∀ j, (rechokeUploads s e).optimistic = some j →
        (rechokeUploads s e).chokes.getD j true = false ∧
          (rechokeUploads s e).scaler = OptimisticUnchokeMultiplier ∧
          peerInterested e j = true ∧
          ∃ p, e.peers[j]? = some p ∧ p.is_seed = false) := by
  have hdi := rechokeUploads_dichotomy s e (if 0 < s.scaler then s.optimistic else none)
    (if 0 < s.scaler then s.scaler - 1 else s.scaler)
    (capLoop e.upload_slots e.is_maxed_out 0
      (rechokeSort (rechokeBuild e s.chokes (if 0 < s.scaler then s.optimistic else none))))
    rfl rfl rfl
  generalize hopt1 : (if 0 < s.scaler then s.optimistic else none) = opt1 at hdi
  generalize hscaler1 : (if 0 < s.scaler then s.scaler - 1 else s.scaler) = scaler1 at hdi
  generalize hcap : capLoop e.upload_slots e.is_maxed_out 0
    (rechokeSort (rechokeBuild e s.chokes opt1)) = cap at hdi
  have hperm : (rechokeSort (rechokeBuild e s.chokes opt1)).Perm
      (rechokeBuild e s.chokes opt1) := List.perm_insertionSort _ _
  have hidx12 := capLoop_append_idx e.upload_slots e.is_maxed_out
    (rechokeSort (rechokeBuild e s.chokes opt1)) 0
  rw [hcap] at hidx12
  have hpermidx := hperm.map (·.idx)
  have hnodup12 : ((cap.1 ++ cap.2).map (·.idx)).Nodup := by
    rw [hidx12]
    exact hpermidx.nodup_iff.mpr (rechokeBuild_idx_nodup e s.chokes opt1)
  have hmem_bld : ∀ i, i ∈ (cap.1 ++ cap.2).map (·.idx)
      ↔ i ∈ (rechokeBuild e s.chokes opt1).map (·.idx) := by
    intro i
    rw [hidx12]
    exact hpermidx.mem_iff
  have hrest_bld : ∀ c ∈ cap.2, c ∈ rechokeBuild e s.chokes opt1 := by
    intro c hc
    rw [← hcap] at hc
    exact hperm.mem_iff.mp (capLoop_snd_sub _ _ _ _ c hc)
  have hrest_choked : ∀ c ∈ cap.2, c.is_choked = true := by
    intro c hc
    obtain ⟨p, _, _, _, _, _, hch, _⟩ := rechokeBuild_mem _ _ _ _ (hrest_bld c hc)
    exact hch
  have hcnt0 : cap.2.countP (fun c => !c.is_choked && peerInterested e c.idx) ≤ 0 := by
    rw [List.countP_eq_zero.mpr]
    intro c hc
    rw [hrest_choked c hc]
    simp
  refine ⟨?_, ?_, ?_, ?_, ?_⟩
  -- (i): at most uploadSlots + 1 unchoked-and-interested
  · rcases hdi with hN | ⟨cpk, hmem, hint, hoptn, hmax, hP⟩
    · rw [hN]
      have hcore := rechoke_count_core e s.chokes opt1 cap.2 0 (by rw [hcap]) hcnt0
      rw [hcap] at hcore
      show countUnchokedInterested e (applyChokes (rechokeBase e s.chokes) (cap.1 ++ cap.2))
        ≤ e.upload_slots + 1
      split at hcore <;> omega
    · rw [hP]
      have hmapg : ((cap.2.map fun x =>
          if x.idx = cpk.idx then { x with is_choked := false } else x).map (·.idx))
          = cap.2.map (·.idx) := by
        rw [List.map_map]
        refine List.map_congr_left fun x _ => ?_
        simp only [Function.comp_apply]
        by_cases hx : x.idx = cpk.idx
        · rw [if_pos hx]
        · rw [if_neg hx]
      have hcnt1 : (cap.2.map fun x =>
          if x.idx = cpk.idx then { x with is_choked := false } else x).countP
          (fun c => !c.is_choked && peerInterested e c.idx) ≤ 1 := by
        rw [List.countP_map]
        have hstep1 : cap.2.countP ((fun c => !c.is_choked && peerInterested e c.idx) ∘
            fun x => if x.idx = cpk.idx then { x with is_choked := false } else x)
            ≤ cap.2.countP (fun x => x.idx == cpk.idx) := by
          refine List.countP_mono_left fun x hx hpx => ?_
          by_cases hxc : x.idx = cpk.idx
          · exact decide_eq_true hxc
          · exfalso
            simp only [Function.comp_apply, if_neg hxc, hrest_choked x hx] at hpx
            simp at hpx
        have hstep2 : cap.2.countP (fun x => x.idx == cpk.idx) ≤ 1 := by
          have hcnt := List.nodup_iff_count_le_one.mp
            (List.Nodup.of_append_right (by rw [← List.map_append]; exact hnodup12)) cpk.idx
          rw [List.count_eq_countP, List.countP_map] at hcnt
          exact le_trans (le_of_eq (List.countP_congr fun x _ => by simp)) hcnt
        omega
      have hcore := rechoke_count_core e s.chokes opt1
        (cap.2.map fun x => if x.idx = cpk.idx then { x with is_choked := false } else x) 1
        (by rw [hcap, hmapg]) hcnt1
      rw [hcap, hoptn] at hcore
      simp only [Option.isSome_none, Bool.false_eq_true, if_false] at hcore
      show countUnchokedInterested e (applyChokes (rechokeBase e s.chokes)
        (cap.1 ++ cap.2.map fun x =>
          if x.idx = cpk.idx then { x with is_choked := false } else x))
        ≤ e.upload_slots + 1
      omega
  -- (ii): with no optimistic peer, at most uploadSlots
  · rcases hdi with hN | ⟨cpk, hmem, hint, hoptn, hmax, hP⟩
    · rw [hN]
      intro hnone
      have hnone2 : opt1 = none := hnone
      subst hnone2
      have hcore := rechoke_count_core e s.chokes none cap.2 0 (by rw [hcap]) hcnt0
      rw [hcap] at hcore
      simp only [Option.isSome_none, Bool.false_eq_true, if_false] at hcore
      show countUnchokedInterested e (applyChokes (rechokeBase e s.chokes) (cap.1 ++ cap.2))
        ≤ e.upload_slots
      omega
    · rw [hP]
      intro hnone
      exact Option.noConfusion (hnone : some cpk.idx = none)
  -- (iii): seeds are choked
  · intro i p hp hseed
    have hnotbld : i ∉ (rechokeBuild e s.chokes opt1).map (·.idx) := by
      intro hmm
      obtain ⟨c, hc, hci⟩ := List.mem_map.mp hmm
      obtain ⟨p2, hp2, hns, _⟩ := rechokeBuild_mem _ _ _ _ hc
      rw [hci, hp] at hp2
      cases hp2
      rw [hseed] at hns
      cases hns
    have hi : i < e.peers.length := (List.getElem?_eq_some.mp hp).1
    have hbase : (rechokeBase e s.chokes).getD i true = true := by
      rw [rechokeBase_getD e s.chokes i hi]
      simp only [hp]
      simp [hseed]
    rcases hdi with hN | ⟨cpk, hmem, hint, hoptn, hmax, hP⟩
    · rw [hN]
      exact (applyChokes_getD_not_mem _ _ _ _
        fun hmm => hnotbld ((hmem_bld i).mp hmm)).trans hbase
    · rw [hP]
      have hnotin : i ∉ ((cap.1 ++ cap.2.map fun x =>
          if x.idx = cpk.idx then { x with is_choked := false } else x).map (·.idx)) := by
        intro hmm
        refine hnotbld ((hmem_bld i).mp ?_)
        rw [List.map_append] at hmm ⊢
        rcases List.mem_append.mp hmm with h | h
        · exact List.mem_append.mpr (Or.inl h)
        · refine List.mem_append.mpr (Or.inr ?_)
          rw [List.map_map] at h
          obtain ⟨x, hx, hxi⟩ := List.mem_map.mp h
          refine List.mem_map.mpr ⟨x, hx, ?_⟩
          simp only [Function.comp_apply] at hxi
          by_cases hxc : x.idx = cpk.idx
          · rw [if_pos hxc] at hxi; exact hxi
          · rw [if_neg hxc] at hxi; exact hxi
      exact (applyChokes_getD_not_mem _ _ _ _ hnotin).trans hbase
  -- (iv): a live optimistic peer is left untouched
  · intro i p hpos hsome hp hseed hca
    have hopt1some : opt1 = some i := by
      rw [← hopt1, if_pos hpos, hsome]
    have hscaler1v : scaler1 = s.scaler - 1 := by
      rw [← hscaler1, if_pos hpos]
    rcases hdi with hN | ⟨cpk, hmem, hint, hoptn, hmax, hP⟩
    · rw [hN]
      have hnotbld : i ∉ (rechokeBuild e s.chokes opt1).map (·.idx) := by
        intro hmm
        obtain ⟨c, hc, hci⟩ := List.mem_map.mp hmm
        obtain ⟨p2, hp2, _, _, hne, _⟩ := rechokeBuild_mem _ _ _ _ hc
        rw [hci] at hne
        exact hne hopt1some
      have hi : i < e.peers.length := (List.getElem?_eq_some.mp hp).1
      have hbase : (rechokeBase e s.chokes).getD i true = s.chokes.getD i true := by
        rw [rechokeBase_getD e s.chokes i hi]
        simp only [hp]
        simp [hseed, hca]
      refine ⟨?_, hopt1some, hscaler1v⟩
      exact (applyChokes_getD_not_mem _ _ _ _
        fun hmm => hnotbld ((hmem_bld i).mp hmm)).trans hbase
    · rw [hoptn] at hopt1some
      cases hopt1some
  -- (v): a freshly chosen optimistic peer is unchoked
  · intro hzero j hj
    have hopt1none : opt1 = none := by
      rw [← hopt1, hzero]
      simp
    rcases hdi with hN | ⟨cpk, hmem, hint, hoptn, hmax, hP⟩
    · rw [hN] at hj
      have hj2 : opt1 = some j := hj
      rw [hopt1none] at hj2
      cases hj2
    · rw [hP] at hj
      have hj3 : some cpk.idx = some j := hj
      have hj4 := Option.some.inj hj3
      subst hj4
      obtain ⟨p, hp, hnseed, _, _, hintf, _, _⟩ :=
        rechokeBuild_mem _ _ _ _ (hrest_bld cpk hmem)
      have hlt : cpk.idx < (rechokeBase e s.chokes).length := by
        rw [rechokeBase_length]
        exact (List.getElem?_eq_some.mp hp).1
      have hgmem : ({ cpk with is_choked := false } : ChokeData)
          ∈ cap.1 ++ cap.2.map fun x =>
            if x.idx = cpk.idx then { x with is_choked := false } else x := by
        refine List.mem_append.mpr (Or.inr ?_)
        refine List.mem_map.mpr ⟨cpk, hmem, ?_⟩
        rw [if_pos rfl]
      have hmapg : ((cap.2.map fun x =>
          if x.idx = cpk.idx then { x with is_choked := false } else x).map (·.idx))
          = cap.2.map (·.idx) := by
        rw [List.map_map]
        refine List.map_congr_left fun x _ => ?_
        simp only [Function.comp_apply]
        by_cases hx : x.idx = cpk.idx
        · rw [if_pos hx]
        · rw [if_neg hx]
      have hnodupP : ((cap.1 ++ cap.2.map fun x =>
          if x.idx = cpk.idx then { x with is_choked := false } else x).map (·.idx)).Nodup := by
        rw [List.map_append, hmapg, ← List.map_append]
        exact hnodup12
      have hchoke := applyChokes_getD_mem _ (rechokeBase e s.chokes)
        ({ cpk with is_choked := false } : ChokeData) hnodupP hgmem hlt
      refine ⟨?_, ?_, ?_, p, hp, hnseed⟩
      · rw [hP]
        exact hchoke
      · rw [hP]
      · show ((e.peers[cpk.idx]?).map (·.is_interested)).getD false = true
        rw [hp]
        show p.is_interested = true
        rw [← hintf]
        exact hint

/-- Claim C1 is false on the code: with one upload slot, two interested
non-seed peers and no optimistic peer yet, the pulse unchokes one peer
through the slot-capping loop and a second through the fresh optimistic
unchoke — 2 unchoked-and-interested peers with `uploadSlotsPerTorrent`
= 1. -/
theorem C1_counterexample :
    C1exEnv.upload_slots = 1 ∧ (∀ p ∈ C1exEnv.peers, p.is_seed = false) ∧
      countUnchokedInterested C1exEnv (rechokeUploads C1exState C1exEnv).chokes = 2 := by
  decide

/-- Witness for `C1_rechoke_amended` on the concrete three-peer scenario
(parts i, ii, iii, iv) and on the counterexample scenario (part v). -/
theorem C1_rechoke_amended_witness :
    ((0 : Nat) < C1wState.scaler ∧ C1wState.optimistic = some 0 ∧
        C1wEnv.peers[0]? = some ⟨false, true, 5, 0⟩ ∧
        (⟨false, true, 5, 0⟩ : RechokePeer).is_seed = false ∧ C1wEnv.choke_all = false ∧
        C1wEnv.peers[1]? = some ⟨true, true, 3, 1⟩ ∧
        (⟨true, true, 3, 1⟩ : RechokePeer).is_seed = true ∧
        C1exState.scaler = 0 ∧ (rechokeUploads C1exState C1exEnv).optimistic = some 1) ∧
      countUnchokedInterested C1wEnv (rechokeUploads C1wState C1wEnv).chokes
          ≤ C1wEnv.upload_slots + 1 ∧
      (rechokeUploads C1wState C1wEnv).chokes.getD 1 true = true ∧
      ((rechokeUploads C1wState C1wEnv).chokes.getD 0 true = C1wState.chokes.getD 0 true ∧
        (rechokeUploads C1wState C1wEnv).optimistic = some 0 ∧
        (rechokeUploads C1wState C1wEnv).scaler = C1wState.scaler - 1) ∧
      ((rechokeUploads C1exState C1exEnv).chokes.getD 1 true = false ∧
        (rechokeUploads C1exState C1exEnv).scaler = OptimisticUnchokeMultiplier ∧
        peerInterested C1exEnv 1 = true ∧
        ∃ p, C1exEnv.peers[1]? = some p ∧ p.is_seed = false) :=
  ⟨⟨by decide, rfl, rfl, rfl, rfl, rfl, rfl, rfl, by decide⟩,
    (C1_rechoke_amended C1wState C1wEnv).1,
    (C1_rechoke_amended C1wState C1wEnv).2.2.1 1 ⟨true, true, 3, 1⟩ rfl rfl,
    (C1_rechoke_amended C1wState C1wEnv).2.2.2.1 0 ⟨false, true, 5, 0⟩ (by decide) rfl rfl rfl
      rfl,
    (C1_rechoke_amended C1exState C1exEnv).2.2.2.2 rfl 1 (by decide)⟩
